import Mathlib

/-!
Shallow embedding of the dual-resource in-memory storage and REST adapter
core of the sample aggregated API server (packages `pkg/apis/widgets`,
`pkg/apis/gadgets`, `pkg/common`).

Modelling conventions:
  * Go `map[string]*T` tables are association lists `List (String × T)`
    with unique keys maintained by `mapInsert`.
  * The `int64` version counter is an `Int` whose increment wraps modulo
    2^64 into the signed range, as Go's `int64` does (`int64wrap`).
  * `fmt.Sprintf("%d", n)` is embedded as `fmtInt` (decimal rendering);
    `parseDec` reads such a string back as a number.
  * `uuid.NewUUID()` and `time.Now()` are nondeterministic inputs, passed
    to the operations as explicit oracle arguments.
  * Go `error` results from the k8s `errors` package and `fmt.Errorf` are
    the inductive `GoErr`: typed API-status errors keep their group /
    resource / name payload, `fmt.Errorf` results keep the message only.
  * A second, heap-level embedding (addresses into an explicit heap, with
    `DeepCopyObject` as fresh allocation) captures the pointer mutation
    and aliasing behaviour of the same functions.
-/

/-- Decimal digit list of `n` (most significant first), with explicit fuel
so evaluation is structural; `fuel > n` always suffices. -/
def toDecAux : Nat → Nat → List Char
  | 0, _ => []
  | fuel+1, n =>
    if n < 10 then [Char.ofNat (48 + n)]
    else toDecAux fuel (n / 10) ++ [Char.ofNat (48 + n % 10)]

/-- Decimal rendering of a natural number, as `fmt.Sprintf("%d", ·)`. -/
def fmtNat (n : Nat) : String := ⟨toDecAux (n+1) n⟩

/-- Decimal rendering of an integer, as `fmt.Sprintf("%d", ·)` on `int64`. -/
def fmtInt (i : Int) : String :=
  if i < 0 then "-" ++ fmtNat i.natAbs else fmtNat i.toNat

def isDigit10 (c : Char) : Bool := 48 ≤ c.toNat && c.toNat ≤ 57

/-- Value of a digit string read in base 10. -/
def decVal (cs : List Char) : Nat := cs.foldl (fun acc c => acc * 10 + (c.toNat - 48)) 0

/-- Read a nonneg decimal string back as a number ("the resource version
read as a number"); `none` on the empty string or any non-digit. -/
def parseDec (s : String) : Option Nat :=
  if s.data ≠ [] ∧ s.data.all isDigit10 then some (decVal s.data) else none

theorem char_ofNat_digit_toNat (r : Nat) (h : r < 10) :
    (Char.ofNat (48 + r)).toNat = 48 + r := by
  interval_cases r <;> decide

theorem toDecAux_spec (fuel : Nat) : ∀ n : Nat, n < fuel →
    toDecAux fuel n ≠ [] ∧ (toDecAux fuel n).all isDigit10 = true ∧
      decVal (toDecAux fuel n) = n := by
  induction fuel with
  | zero => intro n hn; omega
  | succ fuel ih =>
    intro n hn
    by_cases h10 : n < 10
    · refine ⟨by simp [toDecAux, h10], ?_, ?_⟩
      · simp only [toDecAux, if_pos h10, List.all_cons, List.all_nil, Bool.and_true]
        simp [isDigit10, char_ofNat_digit_toNat n h10]
        omega
      · simp [toDecAux, if_pos h10, decVal, char_ofNat_digit_toNat n h10]
    · have hdiv : n / 10 < fuel := by
        have h1 : n / 10 < n := Nat.div_lt_self (by omega) (by omega)
        omega
      obtain ⟨hne, hdig, hval⟩ := ih (n / 10) hdiv
      have hmod : n % 10 < 10 := Nat.mod_lt _ (by omega)
      refine ⟨by simp [toDecAux, if_neg h10], ?_, ?_⟩
      · simp only [toDecAux, if_neg h10, List.all_append, List.all_cons, List.all_nil,
          Bool.and_true, hdig, Bool.true_and]
        simp [isDigit10, char_ofNat_digit_toNat _ hmod]
        omega
      · simp only [toDecAux, if_neg h10, decVal, List.foldl_append]
        simp only [decVal] at hval
        simp [hval, char_ofNat_digit_toNat _ hmod]
        omega

theorem parseDec_fmtNat (n : Nat) : parseDec (fmtNat n) = some n := by
  obtain ⟨hne, hdig, hval⟩ := toDecAux_spec (n+1) n (by omega)
  simp [parseDec, fmtNat, hne, hdig, hval]

theorem fmtNat_ne_empty (n : Nat) : fmtNat n ≠ "" := by
  obtain ⟨hne, -, -⟩ := toDecAux_spec (n+1) n (by omega)
  intro h
  exact hne (congrArg String.data h)

theorem fmtInt_ne_empty (i : Int) : fmtInt i ≠ "" := by
  unfold fmtInt
  by_cases h : i < 0
  · simp only [if_pos h]
    intro hc
    have : ("-" ++ fmtNat i.natAbs).data = "".data := congrArg String.data hc
    simp [String.data_append] at this
  · simp only [if_neg h]
    exact fmtNat_ne_empty _

theorem fmtInt_of_nonneg (i : Int) (h : 0 ≤ i) : fmtInt i = fmtNat i.toNat := by
  simp [fmtInt, not_lt.mpr h]

theorem parseDec_fmtInt (i : Int) (h : 0 ≤ i) : parseDec (fmtInt i) = some i.toNat := by
  rw [fmtInt_of_nonneg i h]; exact parseDec_fmtNat _

/-- Go `error` values produced in this repository: the k8s API-machinery
typed status errors (`errors.NewNotFound`, `errors.NewAlreadyExists` from
the external `k8s.io/apimachinery` errors package) and plain formatted
errors from `fmt.Errorf`. -/
inductive GoErr where
  | apiNotFound (group resource name : String)
  | apiAlreadyExists (group resource name : String)
  | errorf (msg : String)
deriving DecidableEq, Repr

instance exceptDecEq {e a : Type} [DecidableEq e] [DecidableEq a] :
    DecidableEq (Except e a) := fun x y =>
  match x, y with
  | .ok v, .ok w =>
    if h : v = w then .isTrue (by rw [h])
    else .isFalse (by intro hc; injection hc with hvw; exact h hvw)
  | .ok _, .error _ => .isFalse (by intro hc; injection hc)
  | .error _, .ok _ => .isFalse (by intro hc; injection hc)
  | .error v, .error w =>
    if h : v = w then .isTrue (by rw [h])
    else .isFalse (by intro hc; injection hc with hvw; exact h hvw)

/-- Whether an error is one of the typed "not found" / "already exists"
API-status errors (as opposed to an untyped `fmt.Errorf` error). -/
def GoErr.isTypedStatus : GoErr → Bool
  | .apiNotFound _ _ _ => true
  | .apiAlreadyExists _ _ _ => true
  | .errorf _ => false

/-- Constant from `pkg/common/constants.go`: API group name. -/
def GroupName : String := "things.myorg.io"

/-- Constant from `pkg/common/constants.go`: API version. -/
def APIVersion : String := "v1alpha1"

/-- Signed-64-bit wraparound, as Go `int64` arithmetic. -/
def int64wrap (x : Int) : Int := (x + 2^63) % 2^64 - 2^63

theorem int64wrap_eq_self (x : Int) (h0 : -(2^63) ≤ x) (h1 : x < 2^63) :
    int64wrap x = x := by
  unfold int64wrap
  rw [Int.emod_eq_of_lt (by omega) (by omega)]
  omega

/-- Removal of a key from a Go map modelled as an association list. -/
def eraseKey {α : Type} (m : List (String × α)) (k : String) :
    List (String × α) :=
  m.filter (fun p => !(p.1 == k))

/-- Assignment `m[k] = v` on a Go map modelled as an association list.
Go map iteration order is unspecified, so only the lookup function of the
result is significant; this realization puts the new binding first. -/
def mapInsert {α : Type} (m : List (String × α)) (k : String) (v : α) :
    List (String × α) :=
  (k, v) :: eraseKey m k

theorem lookup_eraseKey_other {α : Type} (m : List (String × α)) (k k' : String)
    (hkk : k' ≠ k) : (eraseKey m k).lookup k' = m.lookup k' := by
  induction m with
  | nil => simp [eraseKey]
  | cons p m ih =>
    by_cases hp : p.1 = k
    · have hbeq : (k' == p.1) = false := by
        rw [beq_eq_false_iff_ne]; rw [hp]; exact hkk
      have hstep : eraseKey (p :: m) k = eraseKey m k := by
        simp [eraseKey, List.filter_cons, hp]
      rw [hstep, ih]
      simp [List.lookup, hbeq]
    · have hpb : (p.1 == k) = false := by rw [beq_eq_false_iff_ne]; exact hp
      have hstep : eraseKey (p :: m) k = p :: eraseKey m k := by
        simp [eraseKey, List.filter_cons, hpb]
      rw [hstep]
      simp only [List.lookup]
      cases hmatch : (k' == p.1) with
      | true => rfl
      | false => exact ih

theorem lookup_mapInsert_self {α : Type} (m : List (String × α)) (k : String) (v : α) :
    (mapInsert m k v).lookup k = some v := by
  simp [mapInsert, List.lookup]

theorem lookup_mapInsert_other {α : Type} (m : List (String × α)) (k k' : String)
    (v : α) (hkk : k' ≠ k) : (mapInsert m k v).lookup k' = m.lookup k' := by
  have hbeq : (k' == k) = false := by rw [beq_eq_false_iff_ne]; exact hkk
  simp only [mapInsert, List.lookup, hbeq]
  exact lookup_eraseKey_other m k k' hkk

/-- Bool-valued strict increase of a list of integers. -/
def strictIncr : List Int → Bool
  | [] => true
  | [_] => true
  | a :: b :: l => decide (a < b) && strictIncr (b :: l)

/-- Embeds `metav1.TypeMeta`. -/
structure TypeMeta where
  apiVersion : String
  kind : String
deriving DecidableEq, Repr

/-- Embeds `metav1.ObjectMeta`, restricted to the fields this repository reads or
writes. `creationTimestamp` is a `metav1.Time` modelled as an integer clock
reading; `uid` is the `types.UID` string. -/
structure ObjectMeta where
  name : String
  nspace : String
  uid : String
  resourceVersion : String
  creationTimestamp : Int
deriving DecidableEq, Repr

/-- Embeds `pkg/apis/widgets` WidgetSpec. -/
structure WidgetSpec where
  name : String
  description : String
  size : Int
deriving DecidableEq, Repr

/-- Embeds `pkg/apis/widgets` WidgetStatus. -/
structure WidgetStatus where
  phase : String
deriving DecidableEq, Repr

/-- Embeds `pkg/apis/widgets` Widget. -/
structure Widget where
  typeMeta : TypeMeta
  metadata : ObjectMeta
  spec : WidgetSpec
  status : WidgetStatus
deriving DecidableEq, Repr

/-- Embeds `pkg/apis/widgets` WidgetList (ListMeta is never touched; omitted). -/
structure WidgetList where
  typeMeta : TypeMeta
  items : List Widget
deriving DecidableEq, Repr

/-- Embeds `pkg/apis/widgets` MemoryStorage: name-keyed widget table plus the
shared `int64` version counter. -/
structure MemoryStorage where
  widgets : List (String × Widget)
  versionCounter : Int
deriving DecidableEq, Repr

/-- Embeds `NewMemoryStorage()`. -/
def NewMemoryStorage : MemoryStorage := { widgets := [], versionCounter := 1 }

/-- Embeds `MemoryStorage.Get`: copy-out lookup or `fmt.Errorf("widget %s not
found", name)`. -/
def MemoryStorage.Get (s : MemoryStorage) (name : String) : Except GoErr Widget :=
  match s.widgets.lookup name with
  | none => .error (GoErr.errorf ("widget " ++ name ++ " not found"))
  | some widget => .ok widget

/-- Embeds `MemoryStorage.List`: snapshot of all stored widgets. -/
def MemoryStorage.List (s : MemoryStorage) : WidgetList :=
  { typeMeta := { apiVersion := GroupName ++ "/" ++ APIVersion, kind := "WidgetList" },
    items := s.widgets.map Prod.snd }

/-- Embeds `MemoryStorage.Create`. `genName` stands for the `uuid.NewUUID()` used
when the caller's name is empty, `uid` for the second `uuid.NewUUID()`,
`now` for `time.Now()`. -/
def MemoryStorage.Create (s : MemoryStorage) (genName uid : String) (now : Int)
    (widget : Widget) : Except GoErr Widget × MemoryStorage :=
  let widget :=
    if widget.metadata.name = "" then
      { widget with metadata := { widget.metadata with name := genName } }
    else widget
  if (s.widgets.lookup widget.metadata.name).isSome then
    (.error (GoErr.errorf ("widget " ++ widget.metadata.name ++ " already exists")), s)
  else
    let widget := { widget with
      metadata := { widget.metadata with
        creationTimestamp := now
        resourceVersion := fmtInt s.versionCounter
        uid := uid }
      status := { widget.status with phase := "Active" } }
    (.ok widget,
      { widgets := mapInsert s.widgets widget.metadata.name widget,
        versionCounter := int64wrap (s.versionCounter + 1) })

/-- Embeds `MemoryStorage.Update`. -/
def MemoryStorage.Update (s : MemoryStorage) (widget : Widget) :
    Except GoErr Widget × MemoryStorage :=
  match s.widgets.lookup widget.metadata.name with
  | none =>
    (.error (GoErr.errorf ("widget " ++ widget.metadata.name ++ " not found")), s)
  | some existing =>
    let widget := { widget with
      metadata := { widget.metadata with
        creationTimestamp := existing.metadata.creationTimestamp
        uid := existing.metadata.uid
        resourceVersion := fmtInt s.versionCounter } }
    (.ok widget,
      { widgets := mapInsert s.widgets widget.metadata.name widget,
        versionCounter := int64wrap (s.versionCounter + 1) })

/-- Embeds `MemoryStorage.Delete`. -/
def MemoryStorage.Delete (s : MemoryStorage) (name : String) :
    Except GoErr Unit × MemoryStorage :=
  if (s.widgets.lookup name).isSome then
    (.ok (), { s with widgets := eraseKey s.widgets name })
  else
    (.error (GoErr.errorf ("widget " ++ name ++ " not found")), s)

/-- Embeds `WidgetREST.Get`: delegates to storage. -/
def WidgetREST.Get (s : MemoryStorage) (name : String) : Except GoErr Widget :=
  s.Get name

/-- Embeds `WidgetREST.List`: delegates to storage. -/
def WidgetREST.List (s : MemoryStorage) : WidgetList := s.List

/-- Embeds `WidgetREST.Create`: stamps the TypeMeta and delegates to storage. -/
def WidgetREST.Create (s : MemoryStorage) (genName uid : String) (now : Int)
    (obj : Widget) : Except GoErr Widget × MemoryStorage :=
  let widget := { obj with
    typeMeta := { apiVersion := GroupName ++ "/" ++ APIVersion, kind := "Widget" } }
  s.Create genName uid now widget

/-- Embeds `WidgetREST.Update`. `objInfo` is the framework's
`rest.UpdatedObjectInfo.UpdatedObject` callback (context dropped); the
`forceAllowCreate` flag is accepted as in the source. -/
def WidgetREST.Update (s : MemoryStorage) (name : String)
    (objInfo : Widget → Except GoErr Widget) (forceAllowCreate : Bool) :
    Except GoErr (Widget × Bool) × MemoryStorage :=
  match s.Get name with
  | .error e => (.error e, s)
  | .ok oldObj =>
    match objInfo oldObj with
    | .error e => (.error e, s)
    | .ok updatedObj =>
      let widget := { updatedObj with
        metadata := { updatedObj.metadata with name := name } }
      match s.Update widget with
      | (.ok updatedWidget, s') => (.ok (updatedWidget, false), s')
      | (.error e, s') => (.error e, s')

/-- Embeds `WidgetREST.Delete`. -/
def WidgetREST.Delete (s : MemoryStorage) (name : String) :
    Except GoErr (Widget × Bool) × MemoryStorage :=
  match s.Get name with
  | .error e => (.error e, s)
  | .ok obj =>
    match s.Delete name with
    | (.ok _, s') => (.ok (obj, true), s')
    | (.error e, s') => (.error e, s')

/-- Embeds `pkg/apis/gadgets` GadgetSpec (`typ` embeds the Go field `Type`). -/
structure GadgetSpec where
  typ : String
  version : String
  enabled : Bool
  priority : Int
deriving DecidableEq, Repr

/-- Embeds `pkg/apis/gadgets` GadgetStatus. -/
structure GadgetStatus where
  state : String
deriving DecidableEq, Repr

/-- Embeds `pkg/apis/gadgets` Gadget. -/
structure Gadget where
  typeMeta : TypeMeta
  metadata : ObjectMeta
  spec : GadgetSpec
  status : GadgetStatus
deriving DecidableEq, Repr

/-- Embeds `pkg/apis/gadgets` GadgetList (ListMeta is never touched; omitted). -/
structure GadgetList where
  typeMeta : TypeMeta
  items : List Gadget
deriving DecidableEq, Repr

/-- Embeds `pkg/apis/gadgets` GadgetStorage. -/
structure GadgetStorage where
  gadgets : List (String × Gadget)
  versionCounter : Int
deriving DecidableEq, Repr

/-- Embeds `NewGadgetStorage()`. -/
def NewGadgetStorage : GadgetStorage := { gadgets := [], versionCounter := 1 }

/-- Embeds `GadgetStorage.Get`: copy-out lookup or the typed
`errors.NewNotFound({things.myorg.io, gadgets}, name)`. -/
def GadgetStorage.Get (s : GadgetStorage) (name : String) : Except GoErr Gadget :=
  match s.gadgets.lookup name with
  | none => .error (GoErr.apiNotFound GroupName "gadgets" name)
  | some gadget => .ok gadget

/-- Embeds `GadgetStorage.List`. -/
def GadgetStorage.List (s : GadgetStorage) : GadgetList :=
  { typeMeta := { apiVersion := GroupName ++ "/" ++ APIVersion, kind := "GadgetList" },
    items := s.gadgets.map Prod.snd }

/-- Embeds `GadgetStorage.Create`; note the duplicate-name failure is
`fmt.Errorf("gadget %s already exists", ...)`, not a typed status error. -/
def GadgetStorage.Create (s : GadgetStorage) (genName uid : String) (now : Int)
    (gadget : Gadget) : Except GoErr Gadget × GadgetStorage :=
  let gadget :=
    if gadget.metadata.name = "" then
      { gadget with metadata := { gadget.metadata with name := genName } }
    else gadget
  if (s.gadgets.lookup gadget.metadata.name).isSome then
    (.error (GoErr.errorf ("gadget " ++ gadget.metadata.name ++ " already exists")), s)
  else
    let gadget := { gadget with
      metadata := { gadget.metadata with
        creationTimestamp := now
        resourceVersion := fmtInt s.versionCounter
        uid := uid }
      status := { gadget.status with state := "Active" } }
    (.ok gadget,
      { gadgets := mapInsert s.gadgets gadget.metadata.name gadget,
        versionCounter := int64wrap (s.versionCounter + 1) })

/-- Embeds `GadgetStorage.Update`. -/
def GadgetStorage.Update (s : GadgetStorage) (gadget : Gadget) :
    Except GoErr Gadget × GadgetStorage :=
  match s.gadgets.lookup gadget.metadata.name with
  | none => (.error (GoErr.apiNotFound GroupName "gadgets" gadget.metadata.name), s)
  | some existing =>
    let gadget := { gadget with
      metadata := { gadget.metadata with
        creationTimestamp := existing.metadata.creationTimestamp
        uid := existing.metadata.uid
        resourceVersion := fmtInt s.versionCounter } }
    (.ok gadget,
      { gadgets := mapInsert s.gadgets gadget.metadata.name gadget,
        versionCounter := int64wrap (s.versionCounter + 1) })

/-- Embeds `GadgetStorage.Delete`. -/
def GadgetStorage.Delete (s : GadgetStorage) (name : String) :
    Except GoErr Unit × GadgetStorage :=
  if (s.gadgets.lookup name).isSome then
    (.ok (), { s with gadgets := eraseKey s.gadgets name })
  else
    (.error (GoErr.apiNotFound GroupName "gadgets" name), s)

/-- Embeds `GadgetREST.Get`: delegates to storage. -/
def GadgetREST.Get (s : GadgetStorage) (name : String) : Except GoErr Gadget :=
  s.Get name

/-- Embeds `GadgetREST.List`: delegates to storage. -/
def GadgetREST.List (s : GadgetStorage) : GadgetList := s.List

/-- Embeds `GadgetREST.Create`: stamps the TypeMeta and delegates to storage. -/
def GadgetREST.Create (s : GadgetStorage) (genName uid : String) (now : Int)
    (obj : Gadget) : Except GoErr Gadget × GadgetStorage :=
  let gadget := { obj with
    typeMeta := { apiVersion := GroupName ++ "/" ++ APIVersion, kind := "Gadget" } }
  s.Create genName uid now gadget

/-- Embeds `GadgetREST.Update`. -/
def GadgetREST.Update (s : GadgetStorage) (name : String)
    (objInfo : Gadget → Except GoErr Gadget) (forceAllowCreate : Bool) :
    Except GoErr (Gadget × Bool) × GadgetStorage :=
  match s.Get name with
  | .error e => (.error e, s)
  | .ok oldObj =>
    match objInfo oldObj with
    | .error e => (.error e, s)
    | .ok updatedObj =>
      let gadget := { updatedObj with
        metadata := { updatedObj.metadata with name := name } }
      match s.Update gadget with
      | (.ok updatedGadget, s') => (.ok (updatedGadget, false), s')
      | (.error e, s') => (.error e, s')

/-- Embeds `GadgetREST.Delete`. -/
def GadgetREST.Delete (s : GadgetStorage) (name : String) :
    Except GoErr (Gadget × Bool) × GadgetStorage :=
  match s.Get name with
  | .error e => (.error e, s)
  | .ok obj =>
    match s.Delete name with
    | (.ok _, s') => (.ok (obj, true), s')
    | (.error e, s') => (.error e, s')

theorem mem_of_lookup_eq_some {α : Type} {m : List (String × α)} {k : String}
    {v : α} (h : m.lookup k = some v) : (k, v) ∈ m := by
  induction m with
  | nil => simp [List.lookup] at h
  | cons p m ih =>
    simp only [List.lookup] at h
    cases hbeq : (k == p.1) with
    | true =>
      rw [hbeq] at h
      have hk : k = p.1 := by
        have hb := hbeq
        rwa [beq_iff_eq] at hb
      have hv : p.2 = v := by injection h
      exact List.mem_cons.mpr (Or.inl (by rw [hk, ← hv]))
    | false =>
      rw [hbeq] at h
      exact List.mem_cons_of_mem _ (ih h)

theorem strictIncr_cons (a : Int) (l : List Int) (h : strictIncr l = true)
    (ha : ∀ x ∈ l, a < x) : strictIncr (a :: l) = true := by
  cases l with
  | nil => rfl
  | cons b l =>
    have hab : a < b := ha b (List.mem_cons_self _ _)
    simp [strictIncr, hab, h]

/-- A successful `MemoryStorage.Create` stamps the entity from the counter
and the oracles, keeps a caller-supplied nonempty name (otherwise uses the
generated one), sets the status sentinel, and stores the result under its
name while bumping the counter. -/
theorem MemoryStorage.create_ok (s : MemoryStorage) (genName uid : String)
    (now : Int) (w r : Widget) (s' : MemoryStorage)
    (h : s.Create genName uid now w = (.ok r, s')) :
    r.metadata.resourceVersion = fmtInt s.versionCounter ∧
    r.metadata.uid = uid ∧
    r.metadata.creationTimestamp = now ∧
    r.status.phase = "Active" ∧
    r.spec = w.spec ∧
    (w.metadata.name = "" → r.metadata.name = genName) ∧
    (w.metadata.name ≠ "" → r.metadata.name = w.metadata.name) ∧
    s.widgets.lookup r.metadata.name = none ∧
    s' = { widgets := mapInsert s.widgets r.metadata.name r,
           versionCounter := int64wrap (s.versionCounter + 1) } := by
  unfold MemoryStorage.Create at h
  by_cases hname : w.metadata.name = ""
  · by_cases hex : ((s.widgets.lookup genName).isSome : Prop)
    · simp [hname, hex] at h
    · simp [hname, hex] at h
      obtain ⟨hr, hs⟩ := h
      subst hr
      refine ⟨rfl, rfl, rfl, rfl, rfl, fun _ => rfl, fun hc => absurd hname hc, ?_, hs.symm⟩
      simpa using Option.not_isSome_iff_eq_none.mp hex
  · by_cases hex : ((s.widgets.lookup w.metadata.name).isSome : Prop)
    · simp [hname, hex] at h
    · simp [hname, hex] at h
      obtain ⟨hr, hs⟩ := h
      subst hr
      refine ⟨rfl, rfl, rfl, rfl, rfl, fun hc => absurd hc hname, fun _ => rfl, ?_, hs.symm⟩
      simpa using Option.not_isSome_iff_eq_none.mp hex

/-- A failed `MemoryStorage.Create` returns the state untouched, and fails
exactly when the effective name is already present, with the formatted
already-exists error. -/
theorem MemoryStorage.create_err (s : MemoryStorage) (genName uid : String)
    (now : Int) (w : Widget) (e : GoErr) (s' : MemoryStorage)
    (h : s.Create genName uid now w = (.error e, s')) :
    s' = s ∧
    ∃ n, e = GoErr.errorf ("widget " ++ n ++ " already exists") ∧
      (s.widgets.lookup n).isSome := by
  unfold MemoryStorage.Create at h
  by_cases hname : w.metadata.name = ""
  · by_cases hex : ((s.widgets.lookup genName).isSome : Prop)
    · simp [hname, hex] at h
      exact ⟨h.2.symm, genName, h.1.symm, hex⟩
    · simp [hname, hex] at h
  · by_cases hex : ((s.widgets.lookup w.metadata.name).isSome : Prop)
    · simp [hname, hex] at h
      exact ⟨h.2.symm, w.metadata.name, h.1.symm, hex⟩
    · simp [hname, hex] at h

/-- A successful `MemoryStorage.Update` carries over the stored entity's
uid and creation timestamp, restamps the version from the counter, and
replaces the stored entry while bumping the counter. -/
theorem MemoryStorage.update_ok (s : MemoryStorage) (w r : Widget)
    (s' : MemoryStorage) (h : s.Update w = (.ok r, s')) :
    ∃ existing, s.widgets.lookup w.metadata.name = some existing ∧
      r.metadata.resourceVersion = fmtInt s.versionCounter ∧
      r.metadata.uid = existing.metadata.uid ∧
      r.metadata.creationTimestamp = existing.metadata.creationTimestamp ∧
      r.metadata.name = w.metadata.name ∧
      r.spec = w.spec ∧ r.status = w.status ∧
      s' = { widgets := mapInsert s.widgets w.metadata.name r,
             versionCounter := int64wrap (s.versionCounter + 1) } := by
  unfold MemoryStorage.Update at h
  cases hlk : s.widgets.lookup w.metadata.name with
  | none => rw [hlk] at h; simp at h
  | some existing =>
    rw [hlk] at h
    simp at h
    obtain ⟨hr, hs⟩ := h
    subst hr
    exact ⟨existing, rfl, rfl, rfl, rfl, rfl, rfl, rfl, hs.symm⟩

/-- A failed `MemoryStorage.Update` happens exactly on an absent name,
returns the formatted not-found error, and leaves the state untouched. -/
theorem MemoryStorage.update_err (s : MemoryStorage) (w : Widget) (e : GoErr)
    (s' : MemoryStorage) (h : s.Update w = (.error e, s')) :
    s' = s ∧ s.widgets.lookup w.metadata.name = none ∧
      e = GoErr.errorf ("widget " ++ w.metadata.name ++ " not found") := by
  unfold MemoryStorage.Update at h
  cases hlk : s.widgets.lookup w.metadata.name with
  | none =>
    rw [hlk] at h
    simp at h
    exact ⟨h.2.symm, rfl, h.1.symm⟩
  | some existing => rw [hlk] at h; simp at h

/-- Deletion (`MemoryStorage.Delete`) never touches the counter, and leaves
the state untouched on failure. -/
theorem MemoryStorage.delete_spec (s : MemoryStorage) (name : String) :
    (s.Delete name).2.versionCounter = s.versionCounter ∧
    (∀ e, (s.Delete name).1 = .error e → (s.Delete name).2 = s) ∧
    (∀ p ∈ (s.Delete name).2.widgets, p ∈ s.widgets) := by
  unfold MemoryStorage.Delete
  by_cases hex : ((s.widgets.lookup name).isSome : Prop)
  · refine ⟨by simp [hex], by simp [hex], ?_⟩
    intro p hp
    simp only [hex, if_true] at hp
    exact List.mem_of_mem_filter hp
  · simp [hex]

/-- Gadget analogue of `MemoryStorage.create_ok`. -/
theorem GadgetStorage.gcreate_ok (s : GadgetStorage) (genName uid : String)
    (now : Int) (g r : Gadget) (s' : GadgetStorage)
    (h : s.Create genName uid now g = (.ok r, s')) :
    r.metadata.resourceVersion = fmtInt s.versionCounter ∧
    r.metadata.uid = uid ∧
    r.metadata.creationTimestamp = now ∧
    r.status.state = "Active" ∧
    r.spec = g.spec ∧
    (g.metadata.name = "" → r.metadata.name = genName) ∧
    (g.metadata.name ≠ "" → r.metadata.name = g.metadata.name) ∧
    s.gadgets.lookup r.metadata.name = none ∧
    s' = { gadgets := mapInsert s.gadgets r.metadata.name r,
           versionCounter := int64wrap (s.versionCounter + 1) } := by
  unfold GadgetStorage.Create at h
  by_cases hname : g.metadata.name = ""
  · by_cases hex : ((s.gadgets.lookup genName).isSome : Prop)
    · simp [hname, hex] at h
    · simp [hname, hex] at h
      obtain ⟨hr, hs⟩ := h
      subst hr
      refine ⟨rfl, rfl, rfl, rfl, rfl, fun _ => rfl, fun hc => absurd hname hc, ?_, hs.symm⟩
      simpa using Option.not_isSome_iff_eq_none.mp hex
  · by_cases hex : ((s.gadgets.lookup g.metadata.name).isSome : Prop)
    · simp [hname, hex] at h
    · simp [hname, hex] at h
      obtain ⟨hr, hs⟩ := h
      subst hr
      refine ⟨rfl, rfl, rfl, rfl, rfl, fun hc => absurd hc hname, fun _ => rfl, ?_, hs.symm⟩
      simpa using Option.not_isSome_iff_eq_none.mp hex

/-- Gadget analogue of `MemoryStorage.create_err`; the error is again the
plain formatted one. -/
theorem GadgetStorage.gcreate_err (s : GadgetStorage) (genName uid : String)
    (now : Int) (g : Gadget) (e : GoErr) (s' : GadgetStorage)
    (h : s.Create genName uid now g = (.error e, s')) :
    s' = s ∧
    ∃ n, e = GoErr.errorf ("gadget " ++ n ++ " already exists") ∧
      (s.gadgets.lookup n).isSome := by
  unfold GadgetStorage.Create at h
  by_cases hname : g.metadata.name = ""
  · by_cases hex : ((s.gadgets.lookup genName).isSome : Prop)
    · simp [hname, hex] at h
      exact ⟨h.2.symm, genName, h.1.symm, hex⟩
    · simp [hname, hex] at h
  · by_cases hex : ((s.gadgets.lookup g.metadata.name).isSome : Prop)
    · simp [hname, hex] at h
      exact ⟨h.2.symm, g.metadata.name, h.1.symm, hex⟩
    · simp [hname, hex] at h

/-- Gadget analogue of `MemoryStorage.update_ok`. -/
theorem GadgetStorage.gupdate_ok (s : GadgetStorage) (g r : Gadget)
    (s' : GadgetStorage) (h : s.Update g = (.ok r, s')) :
    ∃ existing, s.gadgets.lookup g.metadata.name = some existing ∧
      r.metadata.resourceVersion = fmtInt s.versionCounter ∧
      r.metadata.uid = existing.metadata.uid ∧
      r.metadata.creationTimestamp = existing.metadata.creationTimestamp ∧
      r.metadata.name = g.metadata.name ∧
      r.spec = g.spec ∧ r.status = g.status ∧
      s' = { gadgets := mapInsert s.gadgets g.metadata.name r,
             versionCounter := int64wrap (s.versionCounter + 1) } := by
  unfold GadgetStorage.Update at h
  cases hlk : s.gadgets.lookup g.metadata.name with
  | none => rw [hlk] at h; simp at h
  | some existing =>
    rw [hlk] at h
    simp at h
    obtain ⟨hr, hs⟩ := h
    subst hr
    exact ⟨existing, rfl, rfl, rfl, rfl, rfl, rfl, rfl, hs.symm⟩

/-- Gadget analogue of `MemoryStorage.update_err`: here the error is the
typed `errors.NewNotFound`. -/
theorem GadgetStorage.gupdate_err (s : GadgetStorage) (g : Gadget) (e : GoErr)
    (s' : GadgetStorage) (h : s.Update g = (.error e, s')) :
    s' = s ∧ s.gadgets.lookup g.metadata.name = none ∧
      e = GoErr.apiNotFound GroupName "gadgets" g.metadata.name := by
  unfold GadgetStorage.Update at h
  cases hlk : s.gadgets.lookup g.metadata.name with
  | none =>
    rw [hlk] at h
    simp at h
    exact ⟨h.2.symm, rfl, h.1.symm⟩
  | some existing => rw [hlk] at h; simp at h

/-- Gadget analogue of `MemoryStorage.delete_spec`. -/
theorem GadgetStorage.gdelete_spec (s : GadgetStorage) (name : String) :
    (s.Delete name).2.versionCounter = s.versionCounter ∧
    (∀ e, (s.Delete name).1 = .error e → (s.Delete name).2 = s) ∧
    (∀ p ∈ (s.Delete name).2.gadgets, p ∈ s.gadgets) := by
  unfold GadgetStorage.Delete
  by_cases hex : ((s.gadgets.lookup name).isSome : Prop)
  · refine ⟨by simp [hex], by simp [hex], ?_⟩
    intro p hp
    simp only [hex, if_true] at hp
    exact List.mem_of_mem_filter hp
  · simp [hex]

/-- One mutating storage call on the widget table, with its oracle
inputs (generated name, generated uid, clock reading). -/
inductive WidgetOp where
  | create (genName uid : String) (now : Int) (w : Widget)
  | update (w : Widget)
  | delete (n : String)

/-- State after one widget-table operation. -/
def widgetStep (s : MemoryStorage) : WidgetOp → MemoryStorage
  | .create genName uid now w => (s.Create genName uid now w).2
  | .update w => (s.Update w).2
  | .delete n => (s.Delete n).2

/-- The (returned entity, counter value at assignment time) of each
successful Create or Update along a trace, in order. -/
def widgetWriteEvents : MemoryStorage → List WidgetOp → List (Widget × Int)
  | _, [] => []
  | s, op :: ops =>
    let rest := widgetWriteEvents (widgetStep s op) ops
    match op with
    | .create genName uid now w =>
      match (s.Create genName uid now w).1 with
      | .ok r => (r, s.versionCounter) :: rest
      | .error _ => rest
    | .update w =>
      match (s.Update w).1 with
      | .ok r => (r, s.versionCounter) :: rest
      | .error _ => rest
    | .delete _ => rest

/-- Gadget analogue of `WidgetOp`. -/
inductive GadgetOp where
  | create (genName uid : String) (now : Int) (g : Gadget)
  | update (g : Gadget)
  | delete (n : String)

/-- State after one gadget-table operation. -/
def gadgetStep (s : GadgetStorage) : GadgetOp → GadgetStorage
  | .create genName uid now g => (s.Create genName uid now g).2
  | .update g => (s.Update g).2
  | .delete n => (s.Delete n).2

/-- Gadget analogue of `widgetWriteEvents`. -/
def gadgetWriteEvents : GadgetStorage → List GadgetOp → List (Gadget × Int)
  | _, [] => []
  | s, op :: ops =>
    let rest := gadgetWriteEvents (gadgetStep s op) ops
    match op with
    | .create genName uid now g =>
      match (s.Create genName uid now g).1 with
      | .ok r => (r, s.versionCounter) :: rest
      | .error _ => rest
    | .update g =>
      match (s.Update g).1 with
      | .ok r => (r, s.versionCounter) :: rest
      | .error _ => rest
    | .delete _ => rest

/-- Along any widget-table trace whose length keeps the `int64` counter
from overflowing, every successful write is stamped from the counter value
recorded with it, and those counter values strictly increase. -/
theorem widgetTrace_versions (ops : List WidgetOp) : ∀ s : MemoryStorage,
    0 ≤ s.versionCounter →
    s.versionCounter + ops.length ≤ 2^63 - 1 →
    (∀ ev ∈ widgetWriteEvents s ops,
        ev.1.metadata.resourceVersion = fmtInt ev.2 ∧ s.versionCounter ≤ ev.2) ∧
    strictIncr ((widgetWriteEvents s ops).map Prod.snd) = true := by
  induction ops with
  | nil => intro s _ _; exact ⟨by intro ev hev; simp [widgetWriteEvents] at hev, rfl⟩
  | cons op ops ih =>
    intro s h0 hbound
    cases op with
    | create genName uid now w =>
      rcases hE : s.Create genName uid now w with ⟨res, s2⟩
      cases res with
      | ok r =>
        obtain ⟨hrv, -, -, -, -, -, -, -, hs2⟩ :=
          MemoryStorage.create_ok s genName uid now w r s2 hE
        have hvc2 : s2.versionCounter = s.versionCounter + 1 := by
          rw [hs2]
          exact int64wrap_eq_self _ (by simp at hbound; omega) (by simp at hbound; omega)
        have hrec := ih s2 (by omega) (by simp at hbound ⊢; omega)
        have hevents : widgetWriteEvents s (WidgetOp.create genName uid now w :: ops) =
            (r, s.versionCounter) :: widgetWriteEvents s2 ops := by
          simp [widgetWriteEvents, widgetStep, hE]
        rw [hevents]
        constructor
        · intro ev hev
          rcases List.mem_cons.mp hev with hhd | htl
          · subst hhd; exact ⟨hrv, le_refl _⟩
          · obtain ⟨h1, h2⟩ := hrec.1 ev htl
            exact ⟨h1, by omega⟩
        · rw [List.map_cons]
          apply strictIncr_cons _ _ hrec.2
          intro x hx
          rcases List.mem_map.mp hx with ⟨ev, hev, hx⟩
          have := (hrec.1 ev hev).2
          omega
      | error e =>
        obtain ⟨hs2, -⟩ := MemoryStorage.create_err s genName uid now w e s2 hE
        rw [hs2] at hE
        have hrec := ih s h0 (by simp at hbound ⊢; omega)
        have hevents : widgetWriteEvents s (WidgetOp.create genName uid now w :: ops) =
            widgetWriteEvents s ops := by
          simp [widgetWriteEvents, widgetStep, hE]
        rw [hevents]
        exact hrec
    | update w =>
      rcases hE : s.Update w with ⟨res, s2⟩
      cases res with
      | ok r =>
        obtain ⟨ex, -, hrv, -, -, -, -, -, hs2⟩ :=
          MemoryStorage.update_ok s w r s2 hE
        have hvc2 : s2.versionCounter = s.versionCounter + 1 := by
          rw [hs2]
          exact int64wrap_eq_self _ (by simp at hbound; omega) (by simp at hbound; omega)
        have hrec := ih s2 (by omega) (by simp at hbound ⊢; omega)
        have hevents : widgetWriteEvents s (WidgetOp.update w :: ops) =
            (r, s.versionCounter) :: widgetWriteEvents s2 ops := by
          simp [widgetWriteEvents, widgetStep, hE]
        rw [hevents]
        constructor
        · intro ev hev
          rcases List.mem_cons.mp hev with hhd | htl
          · subst hhd; exact ⟨hrv, le_refl _⟩
          · obtain ⟨h1, h2⟩ := hrec.1 ev htl
            exact ⟨h1, by omega⟩
        · rw [List.map_cons]
          apply strictIncr_cons _ _ hrec.2
          intro x hx
          rcases List.mem_map.mp hx with ⟨ev, hev, hx⟩
          have := (hrec.1 ev hev).2
          omega
      | error e =>
        obtain ⟨hs2, -⟩ := MemoryStorage.update_err s w e s2 hE
        rw [hs2] at hE
        have hrec := ih s h0 (by simp at hbound ⊢; omega)
        have hevents : widgetWriteEvents s (WidgetOp.update w :: ops) =
            widgetWriteEvents s ops := by
          simp [widgetWriteEvents, widgetStep, hE]
        rw [hevents]
        exact hrec
    | delete n =>
      have hvc2 : ((s.Delete n).2).versionCounter = s.versionCounter :=
        (MemoryStorage.delete_spec s n).1
      have hrec := ih (s.Delete n).2 (by omega) (by simp at hbound ⊢; omega)
      have hevents : widgetWriteEvents s (WidgetOp.delete n :: ops) =
          widgetWriteEvents (s.Delete n).2 ops := by
        simp [widgetWriteEvents, widgetStep]
      rw [hevents]
      constructor
      · intro ev hev
        obtain ⟨h1, h2⟩ := hrec.1 ev hev
        exact ⟨h1, by omega⟩
      · exact hrec.2

/-- Gadget analogue of `widgetTrace_versions`. -/
theorem gadgetTrace_versions (ops : List GadgetOp) : ∀ s : GadgetStorage,
    0 ≤ s.versionCounter →
    s.versionCounter + ops.length ≤ 2^63 - 1 →
    (∀ ev ∈ gadgetWriteEvents s ops,
        ev.1.metadata.resourceVersion = fmtInt ev.2 ∧ s.versionCounter ≤ ev.2) ∧
    strictIncr ((gadgetWriteEvents s ops).map Prod.snd) = true := by
  induction ops with
  | nil => intro s _ _; exact ⟨by intro ev hev; simp [gadgetWriteEvents] at hev, rfl⟩
  | cons op ops ih =>
    intro s h0 hbound
    cases op with
    | create genName uid now g =>
      rcases hE : s.Create genName uid now g with ⟨res, s2⟩
      cases res with
      | ok r =>
        obtain ⟨hrv, -, -, -, -, -, -, -, hs2⟩ :=
          GadgetStorage.gcreate_ok s genName uid now g r s2 hE
        have hvc2 : s2.versionCounter = s.versionCounter + 1 := by
          rw [hs2]
          exact int64wrap_eq_self _ (by simp at hbound; omega) (by simp at hbound; omega)
        have hrec := ih s2 (by omega) (by simp at hbound ⊢; omega)
        have hevents : gadgetWriteEvents s (GadgetOp.create genName uid now g :: ops) =
            (r, s.versionCounter) :: gadgetWriteEvents s2 ops := by
          simp [gadgetWriteEvents, gadgetStep, hE]
        rw [hevents]
        constructor
        · intro ev hev
          rcases List.mem_cons.mp hev with hhd | htl
          · subst hhd; exact ⟨hrv, le_refl _⟩
          · obtain ⟨h1, h2⟩ := hrec.1 ev htl
            exact ⟨h1, by omega⟩
        · rw [List.map_cons]
          apply strictIncr_cons _ _ hrec.2
          intro x hx
          rcases List.mem_map.mp hx with ⟨ev, hev, hx⟩
          have := (hrec.1 ev hev).2
          omega
      | error e =>
        obtain ⟨hs2, -⟩ := GadgetStorage.gcreate_err s genName uid now g e s2 hE
        rw [hs2] at hE
        have hrec := ih s h0 (by simp at hbound ⊢; omega)
        have hevents : gadgetWriteEvents s (GadgetOp.create genName uid now g :: ops) =
            gadgetWriteEvents s ops := by
          simp [gadgetWriteEvents, gadgetStep, hE]
        rw [hevents]
        exact hrec
    | update g =>
      rcases hE : s.Update g with ⟨res, s2⟩
      cases res with
      | ok r =>
        obtain ⟨ex, -, hrv, -, -, -, -, -, hs2⟩ :=
          GadgetStorage.gupdate_ok s g r s2 hE
        have hvc2 : s2.versionCounter = s.versionCounter + 1 := by
          rw [hs2]
          exact int64wrap_eq_self _ (by simp at hbound; omega) (by simp at hbound; omega)
        have hrec := ih s2 (by omega) (by simp at hbound ⊢; omega)
        have hevents : gadgetWriteEvents s (GadgetOp.update g :: ops) =
            (r, s.versionCounter) :: gadgetWriteEvents s2 ops := by
          simp [gadgetWriteEvents, gadgetStep, hE]
        rw [hevents]
        constructor
        · intro ev hev
          rcases List.mem_cons.mp hev with hhd | htl
          · subst hhd; exact ⟨hrv, le_refl _⟩
          · obtain ⟨h1, h2⟩ := hrec.1 ev htl
            exact ⟨h1, by omega⟩
        · rw [List.map_cons]
          apply strictIncr_cons _ _ hrec.2
          intro x hx
          rcases List.mem_map.mp hx with ⟨ev, hev, hx⟩
          have := (hrec.1 ev hev).2
          omega
      | error e =>
        obtain ⟨hs2, -⟩ := GadgetStorage.gupdate_err s g e s2 hE
        rw [hs2] at hE
        have hrec := ih s h0 (by simp at hbound ⊢; omega)
        have hevents : gadgetWriteEvents s (GadgetOp.update g :: ops) =
            gadgetWriteEvents s ops := by
          simp [gadgetWriteEvents, gadgetStep, hE]
        rw [hevents]
        exact hrec
    | delete n =>
      have hvc2 : ((s.Delete n).2).versionCounter = s.versionCounter :=
        (GadgetStorage.gdelete_spec s n).1
      have hrec := ih (s.Delete n).2 (by omega) (by simp at hbound ⊢; omega)
      have hevents : gadgetWriteEvents s (GadgetOp.delete n :: ops) =
          gadgetWriteEvents (s.Delete n).2 ops := by
        simp [gadgetWriteEvents, gadgetStep]
      rw [hevents]
      constructor
      · intro ev hev
        obtain ⟨h1, h2⟩ := hrec.1 ev hev
        exact ⟨h1, by omega⟩
      · exact hrec.2

theorem mem_mapInsert {α : Type} {p : String × α} {m : List (String × α)}
    {k : String} {v : α} (h : p ∈ mapInsert m k v) : p = (k, v) ∨ p ∈ m := by
  rcases List.mem_cons.mp h with hhd | htl
  · exact Or.inl hhd
  · exact Or.inr (List.mem_of_mem_filter htl)

/-- Invariant of reachable widget-table states: the counter is a positive
in-range `int64` value and every stored resource version is the decimal
rendering of a number below the counter. -/
def MemoryStorage.WF (s : MemoryStorage) : Prop :=
  1 ≤ s.versionCounter ∧ s.versionCounter < 2^63 ∧
  ∀ p ∈ s.widgets, ∃ m : Nat,
    p.2.metadata.resourceVersion = fmtNat m ∧ (m : Int) < s.versionCounter

theorem MemoryStorage.WF_init : NewMemoryStorage.WF := by
  refine ⟨by norm_num [NewMemoryStorage], by norm_num [NewMemoryStorage], ?_⟩
  intro p hp
  simp [NewMemoryStorage] at hp

theorem MemoryStorage.WF_step (s : MemoryStorage) (op : WidgetOp) (h : s.WF)
    (hroom : s.versionCounter < 2^63 - 1) : (widgetStep s op).WF := by
  obtain ⟨h1, h2, h3⟩ := h
  cases op with
  | create genName uid now w =>
    rcases hE : s.Create genName uid now w with ⟨res, s2⟩
    cases res with
    | ok r =>
      obtain ⟨hrv, -, -, -, -, -, -, -, hs2⟩ :=
        MemoryStorage.create_ok s genName uid now w r s2 hE
      have hwrap : int64wrap (s.versionCounter + 1) = s.versionCounter + 1 :=
        int64wrap_eq_self _ (by omega) (by omega)
      have hstep : widgetStep s (WidgetOp.create genName uid now w) = s2 := by
        simp [widgetStep, hE]
      rw [hstep, hs2]
      refine ⟨by simp only [hwrap]; omega, by simp only [hwrap]; omega, ?_⟩
      intro p hp
      rcases mem_mapInsert hp with hhd | htl
      · refine ⟨s.versionCounter.toNat, ?_, ?_⟩
        · rw [hhd]
          rw [hrv, fmtInt_of_nonneg _ (by omega)]
        · simp only [hwrap]
          omega
      · obtain ⟨m, hm1, hm2⟩ := h3 p htl
        exact ⟨m, hm1, by simp only [hwrap]; omega⟩
    | error e =>
      obtain ⟨hs2, -⟩ := MemoryStorage.create_err s genName uid now w e s2 hE
      have hstep : widgetStep s (WidgetOp.create genName uid now w) = s2 := by
        simp [widgetStep, hE]
      rw [hstep, hs2]
      exact ⟨h1, h2, h3⟩
  | update w =>
    rcases hE : s.Update w with ⟨res, s2⟩
    cases res with
    | ok r =>
      obtain ⟨ex, -, hrv, -, -, -, -, -, hs2⟩ := MemoryStorage.update_ok s w r s2 hE
      have hwrap : int64wrap (s.versionCounter + 1) = s.versionCounter + 1 :=
        int64wrap_eq_self _ (by omega) (by omega)
      have hstep : widgetStep s (WidgetOp.update w) = s2 := by
        simp [widgetStep, hE]
      rw [hstep, hs2]
      refine ⟨by simp only [hwrap]; omega, by simp only [hwrap]; omega, ?_⟩
      intro p hp
      rcases mem_mapInsert hp with hhd | htl
      · refine ⟨s.versionCounter.toNat, ?_, ?_⟩
        · rw [hhd]
          rw [hrv, fmtInt_of_nonneg _ (by omega)]
        · simp only [hwrap]
          omega
      · obtain ⟨m, hm1, hm2⟩ := h3 p htl
        exact ⟨m, hm1, by simp only [hwrap]; omega⟩
    | error e =>
      obtain ⟨hs2, -⟩ := MemoryStorage.update_err s w e s2 hE
      have hstep : widgetStep s (WidgetOp.update w) = s2 := by
        simp [widgetStep, hE]
      rw [hstep, hs2]
      exact ⟨h1, h2, h3⟩
  | delete n =>
    obtain ⟨hvc, -, hsub⟩ := MemoryStorage.delete_spec s n
    refine ⟨by simp [widgetStep, hvc]; omega, by simp [widgetStep, hvc]; omega, ?_⟩
    intro p hp
    obtain ⟨m, hm1, hm2⟩ := h3 p (hsub p hp)
    exact ⟨m, hm1, by simp [widgetStep, hvc]; omega⟩

/-- Gadget analogue of `MemoryStorage.WF`. -/
def GadgetStorage.WF (s : GadgetStorage) : Prop :=
  1 ≤ s.versionCounter ∧ s.versionCounter < 2^63 ∧
  ∀ p ∈ s.gadgets, ∃ m : Nat,
    p.2.metadata.resourceVersion = fmtNat m ∧ (m : Int) < s.versionCounter

theorem GadgetStorage.gWF_init : NewGadgetStorage.WF := by
  refine ⟨by norm_num [NewGadgetStorage], by norm_num [NewGadgetStorage], ?_⟩
  intro p hp
  simp [NewGadgetStorage] at hp

theorem GadgetStorage.gWF_step (s : GadgetStorage) (op : GadgetOp) (h : s.WF)
    (hroom : s.versionCounter < 2^63 - 1) : (gadgetStep s op).WF := by
  obtain ⟨h1, h2, h3⟩ := h
  cases op with
  | create genName uid now g =>
    rcases hE : s.Create genName uid now g with ⟨res, s2⟩
    cases res with
    | ok r =>
      obtain ⟨hrv, -, -, -, -, -, -, -, hs2⟩ :=
        GadgetStorage.gcreate_ok s genName uid now g r s2 hE
      have hwrap : int64wrap (s.versionCounter + 1) = s.versionCounter + 1 :=
        int64wrap_eq_self _ (by omega) (by omega)
      have hstep : gadgetStep s (GadgetOp.create genName uid now g) = s2 := by
        simp [gadgetStep, hE]
      rw [hstep, hs2]
      refine ⟨by simp only [hwrap]; omega, by simp only [hwrap]; omega, ?_⟩
      intro p hp
      rcases mem_mapInsert hp with hhd | htl
      · refine ⟨s.versionCounter.toNat, ?_, ?_⟩
        · rw [hhd]
          rw [hrv, fmtInt_of_nonneg _ (by omega)]
        · simp only [hwrap]
          omega
      · obtain ⟨m, hm1, hm2⟩ := h3 p htl
        exact ⟨m, hm1, by simp only [hwrap]; omega⟩
    | error e =>
      obtain ⟨hs2, -⟩ := GadgetStorage.gcreate_err s genName uid now g e s2 hE
      have hstep : gadgetStep s (GadgetOp.create genName uid now g) = s2 := by
        simp [gadgetStep, hE]
      rw [hstep, hs2]
      exact ⟨h1, h2, h3⟩
  | update g =>
    rcases hE : s.Update g with ⟨res, s2⟩
    cases res with
    | ok r =>
      obtain ⟨ex, -, hrv, -, -, -, -, -, hs2⟩ := GadgetStorage.gupdate_ok s g r s2 hE
      have hwrap : int64wrap (s.versionCounter + 1) = s.versionCounter + 1 :=
        int64wrap_eq_self _ (by omega) (by omega)
      have hstep : gadgetStep s (GadgetOp.update g) = s2 := by
        simp [gadgetStep, hE]
      rw [hstep, hs2]
      refine ⟨by simp only [hwrap]; omega, by simp only [hwrap]; omega, ?_⟩
      intro p hp
      rcases mem_mapInsert hp with hhd | htl
      · refine ⟨s.versionCounter.toNat, ?_, ?_⟩
        · rw [hhd]
          rw [hrv, fmtInt_of_nonneg _ (by omega)]
        · simp only [hwrap]
          omega
      · obtain ⟨m, hm1, hm2⟩ := h3 p htl
        exact ⟨m, hm1, by simp only [hwrap]; omega⟩
    | error e =>
      obtain ⟨hs2, -⟩ := GadgetStorage.gupdate_err s g e s2 hE
      have hstep : gadgetStep s (GadgetOp.update g) = s2 := by
        simp [gadgetStep, hE]
      rw [hstep, hs2]
      exact ⟨h1, h2, h3⟩
  | delete n =>
    obtain ⟨hvc, -, hsub⟩ := GadgetStorage.gdelete_spec s n
    refine ⟨by simp [gadgetStep, hvc]; omega, by simp [gadgetStep, hvc]; omega, ?_⟩
    intro p hp
    obtain ⟨m, hm1, hm2⟩ := h3 p (hsub p hp)
    exact ⟨m, hm1, by simp [gadgetStep, hvc]; omega⟩

/-- Zero value of `Widget`, used as the out-of-range heap default. -/
def wDefault : Widget :=
  { typeMeta := { apiVersion := "", kind := "" },
    metadata := { name := "", nspace := "", uid := "", resourceVersion := "",
                  creationTimestamp := 0 },
    spec := { name := "", description := "", size := 0 },
    status := { phase := "" } }

/-- Heap of widget records; a `*Widget` is an index into it. -/
abbrev WHeap := List Widget

/-- Dereference a widget pointer. -/
def readW (h : WHeap) (p : Nat) : Widget := h.getD p wDefault

/-- Assign through a widget pointer. -/
def writeW (h : WHeap) (p : Nat) (w : Widget) : WHeap := h.set p w

/-- Heap-level widget table: names map to heap addresses. -/
structure HMemoryStorage where
  widgets : List (String × Nat)
  versionCounter : Int
deriving DecidableEq, Repr

/-- Heap-level `MemoryStorage.Create`: mutates the caller's record through
the pointer `p` (name generation and stamping), stores a deep copy (a
fresh allocation of the current value, `DeepCopyObject`) and returns the
caller's own pointer `p` — the source's `return widget`. -/
def HMemoryStorage.Create (h : WHeap) (s : HMemoryStorage) (genName uid : String)
    (now : Int) (p : Nat) : Except GoErr Nat × WHeap × HMemoryStorage :=
  let w0 := readW h p
  let h1 :=
    if w0.metadata.name = "" then
      writeW h p { w0 with metadata := { w0.metadata with name := genName } }
    else h
  let w1 := readW h1 p
  if (s.widgets.lookup w1.metadata.name).isSome then
    (.error (GoErr.errorf ("widget " ++ w1.metadata.name ++ " already exists")), h1, s)
  else
    let w2 := { w1 with
      metadata := { w1.metadata with
        creationTimestamp := now
        resourceVersion := fmtInt s.versionCounter
        uid := uid }
      status := { w1.status with phase := "Active" } }
    let h2 := writeW h1 p w2
    let q := h2.length
    let h3 := h2 ++ [readW h2 p]
    (.ok p, h3,
      { widgets := mapInsert s.widgets w2.metadata.name q,
        versionCounter := int64wrap (s.versionCounter + 1) })

/-- Heap-level `MemoryStorage.Get`: a fresh deep copy of the stored record
is allocated and its pointer returned. -/
def HMemoryStorage.Get (h : WHeap) (s : HMemoryStorage) (name : String) :
    Except GoErr Nat × WHeap :=
  match s.widgets.lookup name with
  | none => (.error (GoErr.errorf ("widget " ++ name ++ " not found")), h)
  | some q => (.ok h.length, h ++ [readW h q])

/-- Heap-level `MemoryStorage.Update`: mutates the caller's record through
`p`, stores a deep copy, returns the caller's own pointer `p`. -/
def HMemoryStorage.Update (h : WHeap) (s : HMemoryStorage) (p : Nat) :
    Except GoErr Nat × WHeap × HMemoryStorage :=
  let w := readW h p
  match s.widgets.lookup w.metadata.name with
  | none => (.error (GoErr.errorf ("widget " ++ w.metadata.name ++ " not found")), h, s)
  | some qex =>
    let ex := readW h qex
    let w1 := { w with
      metadata := { w.metadata with
        creationTimestamp := ex.metadata.creationTimestamp
        uid := ex.metadata.uid
        resourceVersion := fmtInt s.versionCounter } }
    let h1 := writeW h p w1
    let q := h1.length
    let h2 := h1 ++ [readW h1 p]
    (.ok p, h2,
      { widgets := mapInsert s.widgets w1.metadata.name q,
        versionCounter := int64wrap (s.versionCounter + 1) })

/-- Heap-level `MemoryStorage.Delete`: removes the map entry only. -/
def HMemoryStorage.Delete (h : WHeap) (s : HMemoryStorage) (name : String) :
    Except GoErr Unit × HMemoryStorage :=
  if (s.widgets.lookup name).isSome then
    (.ok (), { s with widgets := eraseKey s.widgets name })
  else
    (.error (GoErr.errorf ("widget " ++ name ++ " not found")), s)

/-- Heap-level `MemoryStorage.List`, with the copy loop unrolled: one
fresh deep copy per stored record, appended to the heap in table order,
and the list of their pointers returned. -/
def HMemoryStorage.List (h : WHeap) (s : HMemoryStorage) : List Nat × WHeap :=
  ((List.range s.widgets.length).map (fun i => h.length + i),
    h ++ s.widgets.map (fun kv => readW h kv.2))

/-- All heap addresses held by the widget table. -/
def wMapAddrs (s : HMemoryStorage) : List Nat :=
  s.widgets.map Prod.snd

/-- Every table address points into the heap. -/
def wValid (h : WHeap) (s : HMemoryStorage) : Prop :=
  ∀ q ∈ wMapAddrs s, q < h.length

/-- The name-to-value view of the heap-level widget table. -/
def storedValsW (h : WHeap) (s : HMemoryStorage) : List (String × Widget) :=
  s.widgets.map (fun kv => (kv.1, readW h kv.2))

theorem readW_writeW_ne (h : WHeap) (a p : Nat) (v : Widget) (hne : p ≠ a) :
    readW (writeW h a v) p = readW h p := by
  simp [readW, writeW, List.getD, List.getElem?_set_ne (Ne.symm hne)]

theorem readW_append_lt (h : WHeap) (x : Widget) (p : Nat) (hp : p < h.length) :
    readW (h ++ [x]) p = readW h p := by
  simp [readW, List.getD, List.getElem?_append_left hp]

/-- Frame property: writing through any pointer outside the table leaves
the table's stored values untouched. -/
theorem storedValsW_frame (h : WHeap) (s : HMemoryStorage) (a : Nat)
    (v : Widget) (ha : a ∉ wMapAddrs s) :
    storedValsW (writeW h a v) s = storedValsW h s := by
  unfold storedValsW
  apply List.map_congr_left
  intro kv hkv
  have hne : kv.2 ≠ a := by
    intro hc
    exact ha (hc ▸ List.mem_map_of_mem Prod.snd hkv)
  rw [readW_writeW_ne h a kv.2 v hne]

theorem mem_map_snd_eraseKey {α : Type} {m : List (String × α)} {k : String}
    {q : α} (h : q ∈ (eraseKey m k).map Prod.snd) : q ∈ m.map Prod.snd := by
  rcases List.mem_map.mp h with ⟨kv, hkv, hq⟩
  exact hq ▸ List.mem_map_of_mem Prod.snd (List.mem_of_mem_filter hkv)

/-- Heap-level widget Create and Update both return the caller's own
pointer, never a fresh allocation. -/
theorem hw_write_returns_arg :
    (∀ h s genName uid now p ret h' s',
      HMemoryStorage.Create h s genName uid now p = (.ok ret, h', s') → ret = p) ∧
    (∀ h s p ret h' s',
      HMemoryStorage.Update h s p = (.ok ret, h', s') → ret = p) := by
  constructor
  · intro h s genName uid now p ret h' s' hE
    simp only [HMemoryStorage.Create] at hE
    split at hE <;> split at hE <;> simp at hE
    · exact hE.1.symm
    · exact hE.1.symm
  · intro h s p ret h' s' hE
    simp only [HMemoryStorage.Update] at hE
    split at hE <;> simp at hE
    exact hE.1.symm

/-- On a successful heap-level widget Create, the heap grows by exactly
the stored deep copy, which lives at the fresh address `h.length`; every
table address afterwards is an old table address or that fresh one. -/
theorem hw_create_ok (h : WHeap) (s : HMemoryStorage) (genName uid : String)
    (now : Int) (p : Nat) (ret : Nat) (h' : WHeap) (s' : HMemoryStorage)
    (hE : HMemoryStorage.Create h s genName uid now p = (.ok ret, h', s')) :
    h'.length = h.length + 1 ∧
    (∀ q ∈ wMapAddrs s', q ∈ wMapAddrs s ∨ q = h.length) := by
  simp only [HMemoryStorage.Create] at hE
  split at hE <;> split at hE <;> simp at hE
  all_goals
    obtain ⟨-, hh, hs⟩ := hE
  all_goals
    constructor
  any_goals
    rw [← hh]
    simp [writeW]
  all_goals
    intro q hq
    rw [← hs] at hq
    simp only [wMapAddrs, mapInsert, List.map_cons] at hq
    rcases List.mem_cons.mp hq with hhd | htl
    · right
      rw [hhd]
      simp [writeW]
    · exact Or.inl (mem_map_snd_eraseKey htl)

/-- Update analogue of `hw_create_ok`. -/
theorem hw_update_ok (h : WHeap) (s : HMemoryStorage) (p : Nat) (ret : Nat)
    (h' : WHeap) (s' : HMemoryStorage)
    (hE : HMemoryStorage.Update h s p = (.ok ret, h', s')) :
    h'.length = h.length + 1 ∧
    (∀ q ∈ wMapAddrs s', q ∈ wMapAddrs s ∨ q = h.length) := by
  simp only [HMemoryStorage.Update] at hE
  split at hE <;> simp at hE
  obtain ⟨-, hh, hs⟩ := hE
  constructor
  · rw [← hh]
    simp [writeW]
  · intro q hq
    rw [← hs] at hq
    simp only [wMapAddrs, mapInsert, List.map_cons] at hq
    rcases List.mem_cons.mp hq with hhd | htl
    · right
      rw [hhd]
      simp [writeW]
    · exact Or.inl (mem_map_snd_eraseKey htl)

/-- On a successful heap-level widget Get, the returned pointer is the
fresh address `h.length` (never a table slot, given validity), its content
is the stored record's value, and no existing heap cell changes. -/
theorem hw_get_ok (h : WHeap) (s : HMemoryStorage) (name : String) (ret : Nat)
    (h' : WHeap) (hE : HMemoryStorage.Get h s name = (.ok ret, h')) :
    ret = h.length ∧
    (∃ addr, s.widgets.lookup name = some addr ∧
      (addr < h.length → readW h' ret = readW h addr)) ∧
    (∀ i, i < h.length → readW h' i = readW h i) := by
  unfold HMemoryStorage.Get at hE
  cases hlk : s.widgets.lookup name with
  | none => rw [hlk] at hE; simp at hE
  | some addr =>
    rw [hlk] at hE
    simp at hE
    obtain ⟨hret, hh⟩ := hE
    refine ⟨hret.symm, ⟨addr, rfl, ?_⟩, ?_⟩
    · intro _
      rw [← hh, hret.symm]
      simp [readW, List.getD]
    · intro i hi
      rw [← hh]
      exact readW_append_lt h _ i hi

/-- Zero value of `Gadget`, used as the out-of-range heap default. -/
def gDefault : Gadget :=
  { typeMeta := { apiVersion := "", kind := "" },
    metadata := { name := "", nspace := "", uid := "", resourceVersion := "",
                  creationTimestamp := 0 },
    spec := { typ := "", version := "", enabled := false, priority := 0 },
    status := { state := "" } }

/-- Heap of gadget records; a `*Gadget` is an index into it. -/
abbrev GHeap := List Gadget

/-- Dereference a gadget pointer. -/
def readG (h : GHeap) (p : Nat) : Gadget := h.getD p gDefault

/-- Assign through a gadget pointer. -/
def writeG (h : GHeap) (p : Nat) (g : Gadget) : GHeap := h.set p g

/-- Heap-level gadget table. -/
structure HGadgetStorage where
  gadgets : List (String × Nat)
  versionCounter : Int
deriving DecidableEq, Repr

/-- Heap-level `GadgetStorage.Create`; see `HMemoryStorage.Create`. -/
def HGadgetStorage.Create (h : GHeap) (s : HGadgetStorage) (genName uid : String)
    (now : Int) (p : Nat) : Except GoErr Nat × GHeap × HGadgetStorage :=
  let g0 := readG h p
  let h1 :=
    if g0.metadata.name = "" then
      writeG h p { g0 with metadata := { g0.metadata with name := genName } }
    else h
  let g1 := readG h1 p
  if (s.gadgets.lookup g1.metadata.name).isSome then
    (.error (GoErr.errorf ("gadget " ++ g1.metadata.name ++ " already exists")), h1, s)
  else
    let g2 := { g1 with
      metadata := { g1.metadata with
        creationTimestamp := now
        resourceVersion := fmtInt s.versionCounter
        uid := uid }
      status := { g1.status with state := "Active" } }
    let h2 := writeG h1 p g2
    let q := h2.length
    let h3 := h2 ++ [readG h2 p]
    (.ok p, h3,
      { gadgets := mapInsert s.gadgets g2.metadata.name q,
        versionCounter := int64wrap (s.versionCounter + 1) })

/-- Heap-level `GadgetStorage.Get`. -/
def HGadgetStorage.Get (h : GHeap) (s : HGadgetStorage) (name : String) :
    Except GoErr Nat × GHeap :=
  match s.gadgets.lookup name with
  | none => (.error (GoErr.apiNotFound GroupName "gadgets" name), h)
  | some q => (.ok h.length, h ++ [readG h q])

/-- Heap-level `GadgetStorage.Update`. -/
def HGadgetStorage.Update (h : GHeap) (s : HGadgetStorage) (p : Nat) :
    Except GoErr Nat × GHeap × HGadgetStorage :=
  let g := readG h p
  match s.gadgets.lookup g.metadata.name with
  | none => (.error (GoErr.apiNotFound GroupName "gadgets" g.metadata.name), h, s)
  | some qex =>
    let ex := readG h qex
    let g1 := { g with
      metadata := { g.metadata with
        creationTimestamp := ex.metadata.creationTimestamp
        uid := ex.metadata.uid
        resourceVersion := fmtInt s.versionCounter } }
    let h1 := writeG h p g1
    let q := h1.length
    let h2 := h1 ++ [readG h1 p]
    (.ok p, h2,
      { gadgets := mapInsert s.gadgets g1.metadata.name q,
        versionCounter := int64wrap (s.versionCounter + 1) })

/-- Heap-level `GadgetStorage.Delete`: removes the map entry only. -/
def HGadgetStorage.Delete (h : GHeap) (s : HGadgetStorage) (name : String) :
    Except GoErr Unit × HGadgetStorage :=
  if (s.gadgets.lookup name).isSome then
    (.ok (), { s with gadgets := eraseKey s.gadgets name })
  else
    (.error (GoErr.apiNotFound GroupName "gadgets" name), s)

/-- Heap-level `GadgetStorage.List`, with the copy loop unrolled: one
fresh deep copy per stored record, appended to the heap in table order,
and the list of their pointers returned. -/
def HGadgetStorage.List (h : GHeap) (s : HGadgetStorage) : List Nat × GHeap :=
  ((List.range s.gadgets.length).map (fun i => h.length + i),
    h ++ s.gadgets.map (fun kv => readG h kv.2))

/-- All heap addresses held by the gadget table. -/
def gMapAddrs (s : HGadgetStorage) : List Nat :=
  s.gadgets.map Prod.snd

/-- Every gadget-table address points into the heap. -/
def gValid (h : GHeap) (s : HGadgetStorage) : Prop :=
  ∀ q ∈ gMapAddrs s, q < h.length

theorem readG_writeG_ne (h : GHeap) (a p : Nat) (v : Gadget) (hne : p ≠ a) :
    readG (writeG h a v) p = readG h p := by
  simp [readG, writeG, List.getD, List.getElem?_set_ne (Ne.symm hne)]

theorem readG_append_lt (h : GHeap) (x : Gadget) (p : Nat) (hp : p < h.length) :
    readG (h ++ [x]) p = readG h p := by
  simp [readG, List.getD, List.getElem?_append_left hp]

/-- The name-to-value view of the heap-level gadget table. -/
def storedValsG (h : GHeap) (s : HGadgetStorage) : List (String × Gadget) :=
  s.gadgets.map (fun kv => (kv.1, readG h kv.2))

/-- Frame property for the gadget table. -/
theorem storedValsG_frame (h : GHeap) (s : HGadgetStorage) (a : Nat)
    (v : Gadget) (ha : a ∉ gMapAddrs s) :
    storedValsG (writeG h a v) s = storedValsG h s := by
  unfold storedValsG
  apply List.map_congr_left
  intro kv hkv
  have hne : kv.2 ≠ a := by
    intro hc
    exact ha (hc ▸ List.mem_map_of_mem Prod.snd hkv)
  rw [readG_writeG_ne h a kv.2 v hne]

/-- Gadget analogue of `hw_write_returns_arg`. -/
theorem hg_write_returns_arg :
    (∀ h s genName uid now p ret h' s',
      HGadgetStorage.Create h s genName uid now p = (.ok ret, h', s') → ret = p) ∧
    (∀ h s p ret h' s',
      HGadgetStorage.Update h s p = (.ok ret, h', s') → ret = p) := by
  constructor
  · intro h s genName uid now p ret h' s' hE
    simp only [HGadgetStorage.Create] at hE
    split at hE <;> split at hE <;> simp at hE
    · exact hE.1.symm
    · exact hE.1.symm
  · intro h s p ret h' s' hE
    simp only [HGadgetStorage.Update] at hE
    split at hE <;> simp at hE
    exact hE.1.symm

/-- Gadget analogue of `hw_create_ok`. -/
theorem hg_create_ok (h : GHeap) (s : HGadgetStorage) (genName uid : String)
    (now : Int) (p : Nat) (ret : Nat) (h' : GHeap) (s' : HGadgetStorage)
    (hE : HGadgetStorage.Create h s genName uid now p = (.ok ret, h', s')) :
    h'.length = h.length + 1 ∧
    (∀ q ∈ gMapAddrs s', q ∈ gMapAddrs s ∨ q = h.length) := by
  simp only [HGadgetStorage.Create] at hE
  split at hE <;> split at hE <;> simp at hE
  all_goals
    obtain ⟨-, hh, hs⟩ := hE
  all_goals
    constructor
  any_goals
    rw [← hh]
    simp [writeG]
  all_goals
    intro q hq
    rw [← hs] at hq
    simp only [gMapAddrs, mapInsert, List.map_cons] at hq
    rcases List.mem_cons.mp hq with hhd | htl
    · right
      rw [hhd]
      simp [writeG]
    · exact Or.inl (mem_map_snd_eraseKey htl)

/-- Gadget analogue of `hw_update_ok`. -/
theorem hg_update_ok (h : GHeap) (s : HGadgetStorage) (p : Nat) (ret : Nat)
    (h' : GHeap) (s' : HGadgetStorage)
    (hE : HGadgetStorage.Update h s p = (.ok ret, h', s')) :
    h'.length = h.length + 1 ∧
    (∀ q ∈ gMapAddrs s', q ∈ gMapAddrs s ∨ q = h.length) := by
  simp only [HGadgetStorage.Update] at hE
  split at hE <;> simp at hE
  obtain ⟨-, hh, hs⟩ := hE
  constructor
  · rw [← hh]
    simp [writeG]
  · intro q hq
    rw [← hs] at hq
    simp only [gMapAddrs, mapInsert, List.map_cons] at hq
    rcases List.mem_cons.mp hq with hhd | htl
    · right
      rw [hhd]
      simp [writeG]
    · exact Or.inl (mem_map_snd_eraseKey htl)

/-- Gadget analogue of `hw_get_ok`. -/
theorem hg_get_ok (h : GHeap) (s : HGadgetStorage) (name : String) (ret : Nat)
    (h' : GHeap) (hE : HGadgetStorage.Get h s name = (.ok ret, h')) :
    ret = h.length ∧
    (∃ addr, s.gadgets.lookup name = some addr ∧
      (addr < h.length → readG h' ret = readG h addr)) ∧
    (∀ i, i < h.length → readG h' i = readG h i) := by
  unfold HGadgetStorage.Get at hE
  cases hlk : s.gadgets.lookup name with
  | none => rw [hlk] at hE; simp at hE
  | some addr =>
    rw [hlk] at hE
    simp at hE
    obtain ⟨hret, hh⟩ := hE
    refine ⟨hret.symm, ⟨addr, rfl, ?_⟩, ?_⟩
    · intro _
      rw [← hh, hret.symm]
      simp [readG, List.getD]
    · intro i hi
      rw [← hh]
      exact readG_append_lt h _ i hi

theorem readW_append_left (h l : WHeap) (i : Nat) (hi : i < h.length) :
    readW (h ++ l) i = readW h i := by
  simp [readW, List.getD, List.getElem?_append_left hi]

theorem readW_append_getD (h : WHeap) (l : List Widget) (i : Nat) :
    readW (h ++ l) (h.length + i) = l.getD i wDefault := by
  simp [readW, List.getD, List.getElem?_append_right (Nat.le_add_right h.length i)]

/-- Heap-level widget List returns one pointer per stored record, each
past the end of the current heap (hence aliasing nothing pre-existing),
whose contents are exactly the stored values; no existing cell changes. -/
theorem hw_list_ok (h : WHeap) (s : HMemoryStorage) :
    (∀ p ∈ (HMemoryStorage.List h s).1, h.length ≤ p) ∧
    (HMemoryStorage.List h s).1.map (fun p => readW (HMemoryStorage.List h s).2 p) =
      (storedValsW h s).map Prod.snd ∧
    (∀ i, i < h.length → readW (HMemoryStorage.List h s).2 i = readW h i) := by
  refine ⟨?_, ?_, ?_⟩
  · intro p hp
    unfold HMemoryStorage.List at hp
    simp at hp
    obtain ⟨i, -, hi⟩ := hp
    omega
  · unfold HMemoryStorage.List storedValsW
    simp only [List.map_map]
    apply List.ext_getElem
    · simp
    · intro i h1 h2
      simp only [List.getElem_map, List.getElem_range, Function.comp]
      rw [readW_append_getD]
      rw [List.getD_eq_getElem?_getD, List.getElem?_eq_getElem (by simpa using h2)]
      simp
  · intro i hi
    unfold HMemoryStorage.List
    exact readW_append_left h _ i hi

theorem readG_append_left (h l : GHeap) (i : Nat) (hi : i < h.length) :
    readG (h ++ l) i = readG h i := by
  simp [readG, List.getD, List.getElem?_append_left hi]

theorem readG_append_getD (h : GHeap) (l : List Gadget) (i : Nat) :
    readG (h ++ l) (h.length + i) = l.getD i gDefault := by
  simp [readG, List.getD, List.getElem?_append_right (Nat.le_add_right h.length i)]

/-- Gadget analogue of `hw_list_ok`. -/
theorem hg_list_ok (h : GHeap) (s : HGadgetStorage) :
    (∀ p ∈ (HGadgetStorage.List h s).1, h.length ≤ p) ∧
    (HGadgetStorage.List h s).1.map (fun p => readG (HGadgetStorage.List h s).2 p) =
      (storedValsG h s).map Prod.snd ∧
    (∀ i, i < h.length → readG (HGadgetStorage.List h s).2 i = readG h i) := by
  refine ⟨?_, ?_, ?_⟩
  · intro p hp
    unfold HGadgetStorage.List at hp
    simp at hp
    obtain ⟨i, -, hi⟩ := hp
    omega
  · unfold HGadgetStorage.List storedValsG
    simp only [List.map_map]
    apply List.ext_getElem
    · simp
    · intro i h1 h2
      simp only [List.getElem_map, List.getElem_range, Function.comp]
      rw [readG_append_getD]
      rw [List.getD_eq_getElem?_getD, List.getElem?_eq_getElem (by simpa using h2)]
      simp
  · intro i hi
    unfold HGadgetStorage.List
    exact readG_append_left h _ i hi

/-- Sample widget input, as in the widget storage tests. -/
def w1 : Widget :=
  { typeMeta := { apiVersion := "", kind := "" },
    metadata := { name := "w1", nspace := "default", uid := "",
                  resourceVersion := "", creationTimestamp := 0 },
    spec := { name := "Test Widget", description := "A test widget", size := 42 },
    status := { phase := "" } }

/-- Value of `w1` as stamped by Create on a fresh table (uid oracle "u1", clock 5). -/
def w1c : Widget :=
  { w1 with
    metadata := { w1.metadata with
      uid := "u1"
      resourceVersion := "1"
      creationTimestamp := 5 }
    status := { phase := "Active" } }

/-- Table state after that Create. -/
def s1c : MemoryStorage := { widgets := [("w1", w1c)], versionCounter := 2 }

/-- Value of `w1c` as restamped by the following Update. -/
def w1u : Widget :=
  { w1c with metadata := { w1c.metadata with resourceVersion := "2" } }

/-- Table state after that Update. -/
def s2c : MemoryStorage := { widgets := [("w1", w1u)], versionCounter := 3 }

/-- Sample gadget input, as in the gadget storage tests. -/
def g1 : Gadget :=
  { typeMeta := { apiVersion := "", kind := "" },
    metadata := { name := "g1", nspace := "default", uid := "",
                  resourceVersion := "", creationTimestamp := 0 },
    spec := { typ := "sensor", version := "v1.0", enabled := true, priority := 10 },
    status := { state := "" } }

/-- Value of `g1` as stamped by Create on a fresh table (uid oracle "ug1", clock 7). -/
def g1c : Gadget :=
  { g1 with
    metadata := { g1.metadata with
      uid := "ug1"
      resourceVersion := "1"
      creationTimestamp := 7 }
    status := { state := "Active" } }

/-- Gadget table state after that Create. -/
def sg1c : GadgetStorage := { gadgets := [("g1", g1c)], versionCounter := 2 }

/-- C5: a storage Update whose entity names an absent key fails with that
table's not-found error (formatted for widgets, typed for gadgets) and
returns the table state bitwise unchanged. -/
theorem claim_C5 :
    (∀ (s : MemoryStorage) (w : Widget), s.widgets.lookup w.metadata.name = none →
      s.Update w =
        (.error (GoErr.errorf ("widget " ++ w.metadata.name ++ " not found")), s)) ∧
    (∀ (s : GadgetStorage) (g : Gadget), s.gadgets.lookup g.metadata.name = none →
      s.Update g =
        (.error (GoErr.apiNotFound GroupName "gadgets" g.metadata.name), s)) := by
  constructor
  · intro s w h
    unfold MemoryStorage.Update
    rw [h]
  · intro s g h
    unfold GadgetStorage.Update
    rw [h]

/-- Witness for C5 at a concrete absent name. -/
theorem claim_C5_witness :
    NewMemoryStorage.Update w1 =
      (.error (GoErr.errorf ("widget " ++ w1.metadata.name ++ " not found")),
        NewMemoryStorage) :=
  claim_C5.1 NewMemoryStorage w1 (by decide)

/-- C4: after a Create stored an entity under a (nonempty) name, a second
Create of any entity carrying that name fails with the already-exists
error, the table state is bitwise unchanged by the failed call, and the
table still holds exactly the first entity. -/
theorem claim_C4 :
    (∀ (s s1 s2 : MemoryStorage) (gn1 u1 : String) (t1 : Int) (e1 r1 : Widget)
        (gn2 u2 : String) (t2 : Int) (e2 : Widget) (res2 : Except GoErr Widget),
      s.Create gn1 u1 t1 e1 = (.ok r1, s1) →
      r1.metadata.name ≠ "" →
      e2.metadata.name = r1.metadata.name →
      s1.Create gn2 u2 t2 e2 = (res2, s2) →
      res2 = .error (GoErr.errorf ("widget " ++ r1.metadata.name ++ " already exists")) ∧
      s2 = s1 ∧ s1.widgets.lookup r1.metadata.name = some r1) ∧
    (∀ (s s1 s2 : GadgetStorage) (gn1 u1 : String) (t1 : Int) (e1 r1 : Gadget)
        (gn2 u2 : String) (t2 : Int) (e2 : Gadget) (res2 : Except GoErr Gadget),
      s.Create gn1 u1 t1 e1 = (.ok r1, s1) →
      r1.metadata.name ≠ "" →
      e2.metadata.name = r1.metadata.name →
      s1.Create gn2 u2 t2 e2 = (res2, s2) →
      res2 = .error (GoErr.errorf ("gadget " ++ r1.metadata.name ++ " already exists")) ∧
      s2 = s1 ∧ s1.gadgets.lookup r1.metadata.name = some r1) := by
  constructor
  · intro s s1 s2 gn1 u1 t1 e1 r1 gn2 u2 t2 e2 res2 h1 hne hname h2
    obtain ⟨-, -, -, -, -, -, -, -, hs1⟩ :=
      MemoryStorage.create_ok s gn1 u1 t1 e1 r1 s1 h1
    have hlk : s1.widgets.lookup r1.metadata.name = some r1 := by
      rw [hs1]
      exact lookup_mapInsert_self _ _ _
    have hne2 : e2.metadata.name ≠ "" := by rw [hname]; exact hne
    unfold MemoryStorage.Create at h2
    simp only [if_neg hne2] at h2
    rw [hname] at h2
    rw [hlk] at h2
    simp at h2
    exact ⟨h2.1.symm, h2.2.symm, hlk⟩
  · intro s s1 s2 gn1 u1 t1 e1 r1 gn2 u2 t2 e2 res2 h1 hne hname h2
    obtain ⟨-, -, -, -, -, -, -, -, hs1⟩ :=
      GadgetStorage.gcreate_ok s gn1 u1 t1 e1 r1 s1 h1
    have hlk : s1.gadgets.lookup r1.metadata.name = some r1 := by
      rw [hs1]
      exact lookup_mapInsert_self _ _ _
    have hne2 : e2.metadata.name ≠ "" := by rw [hname]; exact hne
    unfold GadgetStorage.Create at h2
    simp only [if_neg hne2] at h2
    rw [hname] at h2
    rw [hlk] at h2
    simp at h2
    exact ⟨h2.1.symm, h2.2.symm, hlk⟩

/-- Witness for C4: duplicate Create of `w1` after a first Create. -/
theorem claim_C4_witness :
    (s1c.Create "gen2" "u2" 6 w1).1 =
      .error (GoErr.errorf ("widget " ++ w1c.metadata.name ++ " already exists")) ∧
    (s1c.Create "gen2" "u2" 6 w1).2 = s1c ∧
    s1c.widgets.lookup w1c.metadata.name = some w1c := by
  have h := claim_C4.1 NewMemoryStorage s1c (s1c.Create "gen2" "u2" 6 w1).2
    "gen" "u1" 5 w1 w1c "gen2" "u2" 6 w1 (s1c.Create "gen2" "u2" 6 w1).1
    (by decide) (by decide) (by decide) rfl
  exact h

/-- C3: updating an entity stored under name `n` in a well-formed table
returns and stores an entity keeping the stored uid and creation
timestamp (caller values discarded), whose resource version read as a
number strictly exceeds the previously stored one. -/
theorem claim_C3 :
    (∀ (s s' : MemoryStorage) (n : String) (old w r : Widget),
      s.WF → s.widgets.lookup n = some old → w.metadata.name = n →
      s.Update w = (.ok r, s') →
      r.metadata.uid = old.metadata.uid ∧
      r.metadata.creationTimestamp = old.metadata.creationTimestamp ∧
      s'.widgets.lookup n = some r ∧
      ∃ a b : Nat, parseDec old.metadata.resourceVersion = some a ∧
        parseDec r.metadata.resourceVersion = some b ∧ a < b) ∧
    (∀ (s s' : GadgetStorage) (n : String) (old g r : Gadget),
      s.WF → s.gadgets.lookup n = some old → g.metadata.name = n →
      s.Update g = (.ok r, s') →
      r.metadata.uid = old.metadata.uid ∧
      r.metadata.creationTimestamp = old.metadata.creationTimestamp ∧
      s'.gadgets.lookup n = some r ∧
      ∃ a b : Nat, parseDec old.metadata.resourceVersion = some a ∧
        parseDec r.metadata.resourceVersion = some b ∧ a < b) := by
  constructor
  · intro s s' n old w r hwf hold hname hE
    obtain ⟨existing, hex, hrv, huid, hcts, hrname, -, -, hs'⟩ :=
      MemoryStorage.update_ok s w r s' hE
    rw [hname, hold] at hex
    have hexold : existing = old := by injection hex with hh; exact hh.symm
    subst hexold
    obtain ⟨h1, h2, h3⟩ := hwf
    obtain ⟨m, hm1, hm2⟩ := h3 (n, existing) (mem_of_lookup_eq_some hold)
    have hm1x : existing.metadata.resourceVersion = fmtNat m := hm1
    refine ⟨huid, hcts, ?_, m, s.versionCounter.toNat, ?_, ?_, ?_⟩
    · rw [hs', ← hname]
      exact lookup_mapInsert_self _ _ _
    · rw [hm1x]
      exact parseDec_fmtNat m
    · rw [hrv]
      exact parseDec_fmtInt _ (by omega)
    · omega
  · intro s s' n old g r hwf hold hname hE
    obtain ⟨existing, hex, hrv, huid, hcts, hrname, -, -, hs'⟩ :=
      GadgetStorage.gupdate_ok s g r s' hE
    rw [hname, hold] at hex
    have hexold : existing = old := by injection hex with hh; exact hh.symm
    subst hexold
    obtain ⟨h1, h2, h3⟩ := hwf
    obtain ⟨m, hm1, hm2⟩ := h3 (n, existing) (mem_of_lookup_eq_some hold)
    have hm1x : existing.metadata.resourceVersion = fmtNat m := hm1
    refine ⟨huid, hcts, ?_, m, s.versionCounter.toNat, ?_, ?_, ?_⟩
    · rw [hs', ← hname]
      exact lookup_mapInsert_self _ _ _
    · rw [hm1x]
      exact parseDec_fmtNat m
    · rw [hrv]
      exact parseDec_fmtInt _ (by omega)
    · omega

/-- Witness for C3: update of `w1c` in the one-widget table. -/
theorem claim_C3_witness :
    w1u.metadata.uid = w1c.metadata.uid ∧
    w1u.metadata.creationTimestamp = w1c.metadata.creationTimestamp ∧
    s2c.widgets.lookup "w1" = some w1u := by
  have hwf : s1c.WF := by
    refine ⟨by norm_num [s1c], by norm_num [s1c], ?_⟩
    intro p hp
    simp only [s1c, List.mem_singleton] at hp
    refine ⟨1, ?_, ?_⟩
    · rw [hp]; decide
    · decide
  have h := claim_C3.1 s1c s2c "w1" w1c w1c w1u hwf (by decide) (by decide) (by decide)
  exact ⟨h.1, h.2.1, h.2.2.1⟩

/-- C8: after a successful Create (with nonempty uuid oracles, as
`uuid.NewUUID()` always is), the returned entity has a nonempty name
(generated when the input name was empty, the input name otherwise), a
nonempty resource version, a nonempty uid, the creation timestamp set from
the clock, and the "Active" status sentinel. -/
theorem claim_C8 :
    (∀ (s s' : MemoryStorage) (genName uid : String) (now : Int) (w r : Widget),
      genName ≠ "" → uid ≠ "" →
      s.Create genName uid now w = (.ok r, s') →
      r.metadata.name ≠ "" ∧
      (w.metadata.name = "" → r.metadata.name = genName) ∧
      (w.metadata.name ≠ "" → r.metadata.name = w.metadata.name) ∧
      r.metadata.resourceVersion ≠ "" ∧
      r.metadata.uid ≠ "" ∧
      r.metadata.creationTimestamp = now ∧
      r.status.phase = "Active") ∧
    (∀ (s s' : GadgetStorage) (genName uid : String) (now : Int) (g r : Gadget),
      genName ≠ "" → uid ≠ "" →
      s.Create genName uid now g = (.ok r, s') →
      r.metadata.name ≠ "" ∧
      (g.metadata.name = "" → r.metadata.name = genName) ∧
      (g.metadata.name ≠ "" → r.metadata.name = g.metadata.name) ∧
      r.metadata.resourceVersion ≠ "" ∧
      r.metadata.uid ≠ "" ∧
      r.metadata.creationTimestamp = now ∧
      r.status.state = "Active") := by
  constructor
  · intro s s' genName uid now w r hgen huid hE
    obtain ⟨hrv, hu, hts, hph, -, hn1, hn2, -, -⟩ :=
      MemoryStorage.create_ok s genName uid now w r s' hE
    refine ⟨?_, hn1, hn2, ?_, ?_, hts, hph⟩
    · by_cases hw : w.metadata.name = ""
      · rw [hn1 hw]; exact hgen
      · rw [hn2 hw]; exact hw
    · rw [hrv]; exact fmtInt_ne_empty _
    · rw [hu]; exact huid
  · intro s s' genName uid now g r hgen huid hE
    obtain ⟨hrv, hu, hts, hph, -, hn1, hn2, -, -⟩ :=
      GadgetStorage.gcreate_ok s genName uid now g r s' hE
    refine ⟨?_, hn1, hn2, ?_, ?_, hts, hph⟩
    · by_cases hw : g.metadata.name = ""
      · rw [hn1 hw]; exact hgen
      · rw [hn2 hw]; exact hw
    · rw [hrv]; exact fmtInt_ne_empty _
    · rw [hu]; exact huid

/-- Witness for C8: the concrete Create of `w1`. -/
theorem claim_C8_witness :
    w1c.metadata.name ≠ "" ∧
    (w1.metadata.name = "" → w1c.metadata.name = "gen") ∧
    (w1.metadata.name ≠ "" → w1c.metadata.name = w1.metadata.name) ∧
    w1c.metadata.resourceVersion ≠ "" ∧
    w1c.metadata.uid ≠ "" ∧
    w1c.metadata.creationTimestamp = 5 ∧
    w1c.status.phase = "Active" :=
  claim_C8.1 NewMemoryStorage s1c "gen" "u1" 5 w1 w1c
    (by decide) (by decide) (by decide)

/-- C9: a successful Create overwrites any caller-supplied uid, resource
version and creation timestamp with the freshly generated uid, the
counter's current value, and the clock reading — for every input entity,
so a caller can never choose them. -/
theorem claim_C9 :
    (∀ (s s' : MemoryStorage) (genName uid : String) (now : Int) (w r : Widget),
      s.Create genName uid now w = (.ok r, s') →
      r.metadata.uid = uid ∧
      r.metadata.resourceVersion = fmtInt s.versionCounter ∧
      r.metadata.creationTimestamp = now) ∧
    (∀ (s s' : GadgetStorage) (genName uid : String) (now : Int) (g r : Gadget),
      s.Create genName uid now g = (.ok r, s') →
      r.metadata.uid = uid ∧
      r.metadata.resourceVersion = fmtInt s.versionCounter ∧
      r.metadata.creationTimestamp = now) := by
  constructor
  · intro s s' genName uid now w r hE
    obtain ⟨hrv, hu, hts, -, -, -, -, -, -⟩ :=
      MemoryStorage.create_ok s genName uid now w r s' hE
    exact ⟨hu, hrv, hts⟩
  · intro s s' genName uid now g r hE
    obtain ⟨hrv, hu, hts, -, -, -, -, -, -⟩ :=
      GadgetStorage.gcreate_ok s genName uid now g r s' hE
    exact ⟨hu, hrv, hts⟩

/-- Variant of `w1` with caller-preset uid, resource version and creation timestamp;
Create discards all three. -/
def wPre : Widget :=
  { w1 with metadata := { w1.metadata with
      uid := "caller-uid"
      resourceVersion := "999"
      creationTimestamp := 111 } }

/-- Witness for C9: Create of a widget that carries preset uid, version
and timestamp; all three are overwritten with the generated ones. -/
theorem claim_C9_witness :
    w1c.metadata.uid = "u1" ∧
    w1c.metadata.resourceVersion = fmtInt NewMemoryStorage.versionCounter ∧
    w1c.metadata.creationTimestamp = 5 :=
  claim_C9.1 NewMemoryStorage s1c "gen" "u1" 5 wPre w1c (by decide)

/-- Demo widget trace: one Create then one Update. -/
def demoWOps : List WidgetOp :=
  [WidgetOp.create "gen" "u1" 5 w1, WidgetOp.update w1c]

/-- Demo gadget trace: one Create then one Update. -/
def demoGOps : List GadgetOp :=
  [GadgetOp.create "ggen" "ug1" 7 g1, GadgetOp.update g1c]

/-- C1: along any trace of table operations from a fresh table (short
enough that the `int64` counter cannot overflow), every successful Create
or Update stamps the returned entity from the shared counter value
recorded with it, and those counter values — the versions read as numbers
— strictly increase across the whole table, whichever entity is touched. -/
theorem claim_C1 :
    (∀ ops : List WidgetOp, ops.length ≤ 2^63 - 2 →
      (∀ ev ∈ widgetWriteEvents NewMemoryStorage ops,
          ev.1.metadata.resourceVersion = fmtInt ev.2 ∧
          parseDec ev.1.metadata.resourceVersion = some ev.2.toNat) ∧
      strictIncr ((widgetWriteEvents NewMemoryStorage ops).map Prod.snd) = true) ∧
    (∀ ops : List GadgetOp, ops.length ≤ 2^63 - 2 →
      (∀ ev ∈ gadgetWriteEvents NewGadgetStorage ops,
          ev.1.metadata.resourceVersion = fmtInt ev.2 ∧
          parseDec ev.1.metadata.resourceVersion = some ev.2.toNat) ∧
      strictIncr ((gadgetWriteEvents NewGadgetStorage ops).map Prod.snd) = true) := by
  constructor
  · intro ops hlen
    have h := widgetTrace_versions ops NewMemoryStorage
      (by norm_num [NewMemoryStorage]) (by simp [NewMemoryStorage]; omega)
    refine ⟨?_, h.2⟩
    intro ev hev
    obtain ⟨h1, h2⟩ := h.1 ev hev
    have hpos : (0 : Int) ≤ ev.2 := by
      simp [NewMemoryStorage] at h2
      omega
    exact ⟨h1, by rw [h1]; exact parseDec_fmtInt _ hpos⟩
  · intro ops hlen
    have h := gadgetTrace_versions ops NewGadgetStorage
      (by norm_num [NewGadgetStorage]) (by simp [NewGadgetStorage]; omega)
    refine ⟨?_, h.2⟩
    intro ev hev
    obtain ⟨h1, h2⟩ := h.1 ev hev
    have hpos : (0 : Int) ≤ ev.2 := by
      simp [NewGadgetStorage] at h2
      omega
    exact ⟨h1, by rw [h1]; exact parseDec_fmtInt _ hpos⟩

/-- Witness for C1 on the demo traces. -/
theorem claim_C1_witness :
    strictIncr ((widgetWriteEvents NewMemoryStorage demoWOps).map Prod.snd) = true ∧
    strictIncr ((gadgetWriteEvents NewGadgetStorage demoGOps).map Prod.snd) = true :=
  ⟨(claim_C1.1 demoWOps (by decide)).2, (claim_C1.2 demoGOps (by decide)).2⟩

/-- Counterexample to C6: the widget storage's not-found failure is a
plain formatted error, not a typed "not found" / "already exists"
API-status error. -/
theorem claim_C6_counterexample :
    NewMemoryStorage.Get "w1" = .error (GoErr.errorf "widget w1 not found") ∧
    GoErr.isTypedStatus (GoErr.errorf "widget w1 not found") = false := by
  constructor
  · decide
  · rfl

/-- C6 (amended): gadget-storage Get/Update/Delete failures are the typed
NotFound API-status error, while the gadget Create duplicate-name failure
and all widget-storage failures (Get, Update, Delete, Create) are plain
formatted errors; the REST adapters delegate Get and Create outright and
propagate every storage error unchanged, without retrying or
rewrapping. -/
theorem claim_C6 :
    (∀ (s : MemoryStorage) (n : String), s.widgets.lookup n = none →
      s.Get n = .error (GoErr.errorf ("widget " ++ n ++ " not found")) ∧
      GoErr.isTypedStatus (GoErr.errorf ("widget " ++ n ++ " not found")) = false) ∧
    (∀ (s : MemoryStorage) (n : String), s.widgets.lookup n = none →
      s.Delete n = (.error (GoErr.errorf ("widget " ++ n ++ " not found")), s)) ∧
    (∀ (s s' : MemoryStorage) (gn u : String) (t : Int) (w : Widget) (e : GoErr),
      s.Create gn u t w = (.error e, s') →
      ∃ n, e = GoErr.errorf ("widget " ++ n ++ " already exists")) ∧
    (∀ (s : GadgetStorage) (n : String), s.gadgets.lookup n = none →
      s.Get n = .error (GoErr.apiNotFound GroupName "gadgets" n) ∧
      GoErr.isTypedStatus (GoErr.apiNotFound GroupName "gadgets" n) = true) ∧
    (∀ (s : GadgetStorage) (n : String), s.gadgets.lookup n = none →
      s.Delete n = (.error (GoErr.apiNotFound GroupName "gadgets" n), s)) ∧
    (∀ (s s' : GadgetStorage) (gn u : String) (t : Int) (g : Gadget) (e : GoErr),
      s.Create gn u t g = (.error e, s') →
      ∃ n, e = GoErr.errorf ("gadget " ++ n ++ " already exists")) ∧
    (∀ (s : MemoryStorage) (n : String), WidgetREST.Get s n = s.Get n) ∧
    (∀ (s : MemoryStorage) (n : String) (f : Widget → Except GoErr Widget)
        (b : Bool) (e : GoErr),
      s.Get n = .error e → WidgetREST.Update s n f b = (.error e, s)) ∧
    (∀ (s : MemoryStorage) (n : String) (e : GoErr),
      s.Get n = .error e → WidgetREST.Delete s n = (.error e, s)) ∧
    (∀ (s : GadgetStorage) (n : String), GadgetREST.Get s n = s.Get n) ∧
    (∀ (s : GadgetStorage) (n : String) (f : Gadget → Except GoErr Gadget)
        (b : Bool) (e : GoErr),
      s.Get n = .error e → GadgetREST.Update s n f b = (.error e, s)) ∧
    (∀ (s : GadgetStorage) (n : String) (e : GoErr),
      s.Get n = .error e → GadgetREST.Delete s n = (.error e, s)) ∧
    (∀ (s : MemoryStorage) (w : Widget), s.widgets.lookup w.metadata.name = none →
      s.Update w =
        (.error (GoErr.errorf ("widget " ++ w.metadata.name ++ " not found")), s)) ∧
    (∀ (s : GadgetStorage) (g : Gadget), s.gadgets.lookup g.metadata.name = none →
      s.Update g =
        (.error (GoErr.apiNotFound GroupName "gadgets" g.metadata.name), s)) ∧
    (∀ (s : MemoryStorage) (gn u : String) (t : Int) (o : Widget),
      WidgetREST.Create s gn u t o =
        s.Create gn u t { o with typeMeta :=
          { apiVersion := GroupName ++ "/" ++ APIVersion, kind := "Widget" } }) ∧
    (∀ (s : GadgetStorage) (gn u : String) (t : Int) (o : Gadget),
      GadgetREST.Create s gn u t o =
        s.Create gn u t { o with typeMeta :=
          { apiVersion := GroupName ++ "/" ++ APIVersion, kind := "Gadget" } }) := by
  refine ⟨?_, ?_, ?_, ?_, ?_, ?_, ?_, ?_, ?_, ?_, ?_, ?_, ?_, ?_, ?_, ?_⟩
  · intro s n h
    unfold MemoryStorage.Get
    rw [h]
    exact ⟨rfl, rfl⟩
  · intro s n h
    unfold MemoryStorage.Delete
    simp [h]
  · intro s s' gn u t w e hE
    obtain ⟨-, n, hn, -⟩ := MemoryStorage.create_err s gn u t w e s' hE
    exact ⟨n, hn⟩
  · intro s n h
    unfold GadgetStorage.Get
    rw [h]
    exact ⟨rfl, rfl⟩
  · intro s n h
    unfold GadgetStorage.Delete
    simp [h]
  · intro s s' gn u t g e hE
    obtain ⟨-, n, hn, -⟩ := GadgetStorage.gcreate_err s gn u t g e s' hE
    exact ⟨n, hn⟩
  · intro s n
    rfl
  · intro s n f b e h
    unfold WidgetREST.Update
    rw [h]
  · intro s n e h
    unfold WidgetREST.Delete
    rw [h]
  · intro s n
    rfl
  · intro s n f b e h
    unfold GadgetREST.Update
    rw [h]
  · intro s n e h
    unfold GadgetREST.Delete
    rw [h]
  · intro s w h
    unfold MemoryStorage.Update
    rw [h]
  · intro s g h
    unfold GadgetStorage.Update
    rw [h]
  · intro s gn u t o
    rfl
  · intro s gn u t o
    rfl

/-- Witness for C6 at a concrete absent name on both tables. -/
theorem claim_C6_witness :
    (NewMemoryStorage.Get "x" = .error (GoErr.errorf ("widget " ++ "x" ++ " not found")) ∧
      GoErr.isTypedStatus (GoErr.errorf ("widget " ++ "x" ++ " not found")) = false) ∧
    (NewGadgetStorage.Get "x" = .error (GoErr.apiNotFound GroupName "gadgets" "x") ∧
      GoErr.isTypedStatus (GoErr.apiNotFound GroupName "gadgets" "x") = true) :=
  ⟨claim_C6.1 NewMemoryStorage "x" (by decide),
   claim_C6.2.2.2.1 NewGadgetStorage "x" (by decide)⟩

/-- C7: REST Update fetches the existing object first and propagates its
not-found error; otherwise it feeds the fetched object to the supplied
compute-new-from-old callback (propagating its error), overwrites the name
of the callback's result with the path-supplied name, and returns exactly
the result of Storage.Update on that object. -/
theorem claim_C7 :
    (∀ (s : MemoryStorage) (n : String) (objInfo : Widget → Except GoErr Widget)
        (fac : Bool),
      (∀ e, s.Get n = .error e → WidgetREST.Update s n objInfo fac = (.error e, s)) ∧
      (∀ old e, s.Get n = .ok old → objInfo old = .error e →
        WidgetREST.Update s n objInfo fac = (.error e, s)) ∧
      (∀ old w, s.Get n = .ok old → objInfo old = .ok w →
        WidgetREST.Update s n objInfo fac =
          (match s.Update { w with metadata := { w.metadata with name := n } } with
           | (.ok u, s') => (.ok (u, false), s')
           | (.error e, s') => (.error e, s')))) ∧
    (∀ (s : GadgetStorage) (n : String) (objInfo : Gadget → Except GoErr Gadget)
        (fac : Bool),
      (∀ e, s.Get n = .error e → GadgetREST.Update s n objInfo fac = (.error e, s)) ∧
      (∀ old e, s.Get n = .ok old → objInfo old = .error e →
        GadgetREST.Update s n objInfo fac = (.error e, s)) ∧
      (∀ old g, s.Get n = .ok old → objInfo old = .ok g →
        GadgetREST.Update s n objInfo fac =
          (match s.Update { g with metadata := { g.metadata with name := n } } with
           | (.ok u, s') => (.ok (u, false), s')
           | (.error e, s') => (.error e, s')))) := by
  constructor
  · intro s n objInfo fac
    refine ⟨?_, ?_, ?_⟩
    · intro e h
      simp [WidgetREST.Update, h]
    · intro old e h1 h2
      simp [WidgetREST.Update, h1, h2]
    · intro old w h1 h2
      simp [WidgetREST.Update, h1, h2]
  · intro s n objInfo fac
    refine ⟨?_, ?_, ?_⟩
    · intro e h
      simp [GadgetREST.Update, h]
    · intro old e h1 h2
      simp [GadgetREST.Update, h1, h2]
    · intro old g h1 h2
      simp [GadgetREST.Update, h1, h2]

/-- Witness for C7: concrete identity-callback update on the one-widget
table. -/
theorem claim_C7_witness :
    WidgetREST.Update s1c "w1" (fun o => Except.ok o) false =
      (.ok (w1u, false), s2c) := by
  have h := (claim_C7.1 s1c "w1" (fun o => Except.ok o) false).2.2 w1c w1c (by decide) rfl
  rw [h]
  decide

/-- C10: REST Update's result does not depend on `forceAllowCreate`; with
the name absent it fails with the storage's not-found error (never
creating), and any successful result carries `created = false`. -/
theorem claim_C10 :
    (∀ (s : MemoryStorage) (n : String) (objInfo : Widget → Except GoErr Widget)
        (b1 b2 : Bool),
      WidgetREST.Update s n objInfo b1 = WidgetREST.Update s n objInfo b2) ∧
    (∀ (s : MemoryStorage) (n : String) (objInfo : Widget → Except GoErr Widget)
        (b : Bool),
      s.widgets.lookup n = none →
      WidgetREST.Update s n objInfo b =
        (.error (GoErr.errorf ("widget " ++ n ++ " not found")), s)) ∧
    (∀ (s s' : MemoryStorage) (n : String) (objInfo : Widget → Except GoErr Widget)
        (b : Bool) (r : Widget) (created : Bool),
      WidgetREST.Update s n objInfo b = (.ok (r, created), s') → created = false) ∧
    (∀ (s : GadgetStorage) (n : String) (objInfo : Gadget → Except GoErr Gadget)
        (b1 b2 : Bool),
      GadgetREST.Update s n objInfo b1 = GadgetREST.Update s n objInfo b2) ∧
    (∀ (s : GadgetStorage) (n : String) (objInfo : Gadget → Except GoErr Gadget)
        (b : Bool),
      s.gadgets.lookup n = none →
      GadgetREST.Update s n objInfo b =
        (.error (GoErr.apiNotFound GroupName "gadgets" n), s)) ∧
    (∀ (s s' : GadgetStorage) (n : String) (objInfo : Gadget → Except GoErr Gadget)
        (b : Bool) (r : Gadget) (created : Bool),
      GadgetREST.Update s n objInfo b = (.ok (r, created), s') → created = false) := by
  refine ⟨?_, ?_, ?_, ?_, ?_, ?_⟩
  · intro s n objInfo b1 b2
    rfl
  · intro s n objInfo b h
    have hget : s.Get n = .error (GoErr.errorf ("widget " ++ n ++ " not found")) := by
      unfold MemoryStorage.Get
      rw [h]
    simp [WidgetREST.Update, hget]
  · intro s s' n objInfo b r created hE
    unfold WidgetREST.Update at hE
    cases hget : s.Get n with
    | error e => rw [hget] at hE; simp at hE
    | ok old =>
      rw [hget] at hE
      cases hcb : objInfo old with
      | error e => simp [hcb] at hE
      | ok w =>
        simp only [hcb] at hE
        split at hE
        · simp at hE
          exact hE.1.2
        · simp at hE
  · intro s n objInfo b1 b2
    rfl
  · intro s n objInfo b h
    have hget : s.Get n = .error (GoErr.apiNotFound GroupName "gadgets" n) := by
      unfold GadgetStorage.Get
      rw [h]
    simp [GadgetREST.Update, hget]
  · intro s s' n objInfo b r created hE
    unfold GadgetREST.Update at hE
    cases hget : s.Get n with
    | error e => rw [hget] at hE; simp at hE
    | ok old =>
      rw [hget] at hE
      cases hcb : objInfo old with
      | error e => simp [hcb] at hE
      | ok g =>
        simp only [hcb] at hE
        split at hE
        · simp at hE
          exact hE.1.2
        · simp at hE

/-- Witness for C10: absent name, concrete callback and flag. -/
theorem claim_C10_witness :
    WidgetREST.Update NewMemoryStorage "w1" (fun o => Except.ok o) true =
      (.error (GoErr.errorf ("widget " ++ "w1" ++ " not found")), NewMemoryStorage) :=
  claim_C10.2.1 NewMemoryStorage "w1" (fun o => Except.ok o) true (by decide)

/-- Concrete one-cell heap holding the caller's widget at address 0. -/
def h0W : WHeap := [w1]

/-- Concrete empty heap-level widget table. -/
def s0W : HMemoryStorage := { widgets := [], versionCounter := 1 }

/-- Counterexample to C2: a successful heap-level Create returns address
0 — the caller's own argument record — while every freshly allocated copy
lives at an address ≥ `h0W.length = 1` and the table slot is stored at the
fresh address 1. The value returned to the caller is therefore the very
record the caller passed in (`return widget` in the source), not a deep,
independent copy of it. -/
theorem claim_C2_counterexample :
    (HMemoryStorage.Create h0W s0W "gen" "u1" 5 0).1 = .ok 0 ∧
    (0 : Nat) < h0W.length ∧
    ((HMemoryStorage.Create h0W s0W "gen" "u1" 5 0).2.2).widgets.lookup "w1" = some 1 := by
  refine ⟨?_, by decide, ?_⟩ <;> decide

/-- C2 (amended): the value stored into the map is a fresh deep copy
(allocated past the end of the heap, so no caller/map-slot pair ever
aliases), and Get and List hand out fresh copies of the stored values at
pointers past the end of the heap; Create and Update, however, return the
caller's own argument record stamped in place, not a copy. Writing
through any pointer outside the table never changes the values the table
later stores or returns. -/
theorem claim_C2 :
    (∀ (h : WHeap) (s : HMemoryStorage) (genName uid : String) (now : Int)
        (p ret : Nat) (h' : WHeap) (s' : HMemoryStorage),
      HMemoryStorage.Create h s genName uid now p = (.ok ret, h', s') →
      ret = p ∧ h'.length = h.length + 1 ∧
      ∀ q ∈ wMapAddrs s', q ∈ wMapAddrs s ∨ q = h.length) ∧
    (∀ (h : WHeap) (s : HMemoryStorage) (p ret : Nat) (h' : WHeap)
        (s' : HMemoryStorage),
      HMemoryStorage.Update h s p = (.ok ret, h', s') →
      ret = p ∧ h'.length = h.length + 1 ∧
      ∀ q ∈ wMapAddrs s', q ∈ wMapAddrs s ∨ q = h.length) ∧
    (∀ (h : WHeap) (s : HMemoryStorage) (name : String) (ret : Nat) (h' : WHeap),
      wValid h s →
      HMemoryStorage.Get h s name = (.ok ret, h') →
      ret ∉ wMapAddrs s ∧
      (∃ addr, s.widgets.lookup name = some addr ∧ readW h' ret = readW h addr) ∧
      (∀ i, i < h.length → readW h' i = readW h i)) ∧
    (∀ (h : WHeap) (s : HMemoryStorage) (a : Nat) (v : Widget),
      a ∉ wMapAddrs s → storedValsW (writeW h a v) s = storedValsW h s) ∧
    (∀ (h : GHeap) (s : HGadgetStorage) (genName uid : String) (now : Int)
        (p ret : Nat) (h' : GHeap) (s' : HGadgetStorage),
      HGadgetStorage.Create h s genName uid now p = (.ok ret, h', s') →
      ret = p ∧ h'.length = h.length + 1 ∧
      ∀ q ∈ gMapAddrs s', q ∈ gMapAddrs s ∨ q = h.length) ∧
    (∀ (h : GHeap) (s : HGadgetStorage) (p ret : Nat) (h' : GHeap)
        (s' : HGadgetStorage),
      HGadgetStorage.Update h s p = (.ok ret, h', s') →
      ret = p ∧ h'.length = h.length + 1 ∧
      ∀ q ∈ gMapAddrs s', q ∈ gMapAddrs s ∨ q = h.length) ∧
    (∀ (h : GHeap) (s : HGadgetStorage) (name : String) (ret : Nat) (h' : GHeap),
      gValid h s →
      HGadgetStorage.Get h s name = (.ok ret, h') →
      ret ∉ gMapAddrs s ∧
      (∃ addr, s.gadgets.lookup name = some addr ∧ readG h' ret = readG h addr) ∧
      (∀ i, i < h.length → readG h' i = readG h i)) ∧
    (∀ (h : GHeap) (s : HGadgetStorage) (a : Nat) (v : Gadget),
      a ∉ gMapAddrs s → storedValsG (writeG h a v) s = storedValsG h s) ∧
    (∀ (h : WHeap) (s : HMemoryStorage), wValid h s →
      (∀ p ∈ (HMemoryStorage.List h s).1, h.length ≤ p ∧ p ∉ wMapAddrs s) ∧
      (HMemoryStorage.List h s).1.map (fun p => readW (HMemoryStorage.List h s).2 p) =
        (storedValsW h s).map Prod.snd ∧
      (∀ i, i < h.length → readW (HMemoryStorage.List h s).2 i = readW h i)) ∧
    (∀ (h : GHeap) (s : HGadgetStorage), gValid h s →
      (∀ p ∈ (HGadgetStorage.List h s).1, h.length ≤ p ∧ p ∉ gMapAddrs s) ∧
      (HGadgetStorage.List h s).1.map (fun p => readG (HGadgetStorage.List h s).2 p) =
        (storedValsG h s).map Prod.snd ∧
      (∀ i, i < h.length → readG (HGadgetStorage.List h s).2 i = readG h i)) := by
  refine ⟨?_, ?_, ?_, ?_, ?_, ?_, ?_, ?_, ?_, ?_⟩
  · intro h s genName uid now p ret h' s' hE
    obtain ⟨hlen, hsub⟩ := hw_create_ok h s genName uid now p ret h' s' hE
    exact ⟨hw_write_returns_arg.1 h s genName uid now p ret h' s' hE, hlen, hsub⟩
  · intro h s p ret h' s' hE
    obtain ⟨hlen, hsub⟩ := hw_update_ok h s p ret h' s' hE
    exact ⟨hw_write_returns_arg.2 h s p ret h' s' hE, hlen, hsub⟩
  · intro h s name ret h' hv hE
    obtain ⟨hret, ⟨addr, haddr, hval⟩, hframe⟩ := hw_get_ok h s name ret h' hE
    have haddrlt : addr < h.length :=
      hv addr (List.mem_map_of_mem Prod.snd (mem_of_lookup_eq_some haddr))
    refine ⟨?_, ⟨addr, haddr, hval haddrlt⟩, hframe⟩
    intro hmem
    have := hv ret hmem
    omega
  · intro h s a v ha
    exact storedValsW_frame h s a v ha
  · intro h s genName uid now p ret h' s' hE
    obtain ⟨hlen, hsub⟩ := hg_create_ok h s genName uid now p ret h' s' hE
    exact ⟨hg_write_returns_arg.1 h s genName uid now p ret h' s' hE, hlen, hsub⟩
  · intro h s p ret h' s' hE
    obtain ⟨hlen, hsub⟩ := hg_update_ok h s p ret h' s' hE
    exact ⟨hg_write_returns_arg.2 h s p ret h' s' hE, hlen, hsub⟩
  · intro h s name ret h' hv hE
    obtain ⟨hret, ⟨addr, haddr, hval⟩, hframe⟩ := hg_get_ok h s name ret h' hE
    have haddrlt : addr < h.length :=
      hv addr (List.mem_map_of_mem Prod.snd (mem_of_lookup_eq_some haddr))
    refine ⟨?_, ⟨addr, haddr, hval haddrlt⟩, hframe⟩
    intro hmem
    have := hv ret hmem
    omega
  · intro h s a v ha
    exact storedValsG_frame h s a v ha
  · intro h s hv
    obtain ⟨hfresh, hvals, hframe⟩ := hw_list_ok h s
    refine ⟨?_, hvals, hframe⟩
    intro p hp
    refine ⟨hfresh p hp, ?_⟩
    intro hmem
    have h1 := hv p hmem
    have h2 := hfresh p hp
    omega
  · intro h s hv
    obtain ⟨hfresh, hvals, hframe⟩ := hg_list_ok h s
    refine ⟨?_, hvals, hframe⟩
    intro p hp
    refine ⟨hfresh p hp, ?_⟩
    intro hmem
    have h1 := hv p hmem
    have h2 := hfresh p hp
    omega

/-- Witness for C2: a heap-level Create on the concrete one-cell heap
returns the argument pointer 0 and grows the heap by the stored copy. -/
theorem claim_C2_witness :
    (0 : Nat) = 0 ∧ ((HMemoryStorage.Create h0W s0W "gen" "u1" 5 0).2.1).length =
      h0W.length + 1 := by
  have h := claim_C2.1 h0W s0W "gen" "u1" 5 0 0
    (HMemoryStorage.Create h0W s0W "gen" "u1" 5 0).2.1
    (HMemoryStorage.Create h0W s0W "gen" "u1" 5 0).2.2 (by decide)
  exact ⟨h.1, h.2.1⟩
